import Mathlib

/-!
Verification of the geometry and identity subsystem of the InspectPozo API
(`app/main.py`, `app/auth_utils.py`, `app/schemas.py`, `app/models.py`).

Strings are modelled as `List Char`; Python string primitives (`strip`,
`lower`, `split`, `startswith`, `endswith`, slicing) are translated to
executable Lean functions with the same semantics.  Python `float` values are
modelled as rationals (`ℚ`): every computation the code performs on them
(subtraction of decimal survey elevations, decimal parsing and printing) is
exact on the decimal inputs the claims quantify over.  A raised Python
exception is modelled as `Option.none` / `Except.error`.
-/

attribute [local semireducible] Rat.mul Rat.inv Rat.add Rat.sub Rat.ofScientific

abbrev Str := List Char

/-- Whitespace characters recognised by Python `str.strip()` / `str.split()`. -/
def isPySpace (c : Char) : Bool :=
  c = ' ' || c = '\t' || c = '\n' || c = '\r' || c = '\x0b' || c = '\x0c'

/-- Models Python `str.lstrip()`. -/
def lstrip (s : Str) : Str := s.dropWhile isPySpace

/-- Models Python `str.rstrip()`. -/
def rstrip (s : Str) : Str := (s.reverse.dropWhile isPySpace).reverse

/-- Models Python `str.strip()`. -/
def pyStrip (s : Str) : Str := rstrip (lstrip s)

/-- ASCII lower-casing of one character, as Python `str.lower()` acts on the
ASCII inputs the code manipulates. -/
def lowerChar (c : Char) : Char :=
  if 'A' ≤ c ∧ c ≤ 'Z' then Char.ofNat (c.toNat + 32) else c

/-- Models Python `str.lower()` on ASCII text. -/
def pyLower (s : Str) : Str := s.map lowerChar

/-- Split a string at every character satisfying `p`, keeping empty pieces,
as Python `str.split(sep)` does for a one-character separator. -/
def splitP (p : Char → Bool) : Str → List Str
  | [] => [[]]
  | c :: rest =>
    if p c then [] :: splitP p rest
    else
      match splitP p rest with
      | [] => [[c]]
      | g :: gs => (c :: g) :: gs

/-- Models Python `s.split(",")`. -/
def splitComma (s : Str) : List Str := splitP (fun c => c = ',') s

/-- Models Python `s.split()` (no argument): split on whitespace runs and
discard empty pieces. -/
def pySplitWs (s : Str) : List Str :=
  (splitP isPySpace s).filter (fun g => ¬ g = [])

/-- Models Python `s.replace(",", " ")`. -/
def commaToSpace (s : Str) : Str := s.map (fun c => if c = ',' then ' ' else c)

def isDigit (c : Char) : Bool := '0' ≤ c && c ≤ '9'

def digVal (c : Char) : Nat := c.toNat - '0'.toNat

/-- Value of a digit string read most-significant first. -/
def natOfDigits (s : Str) : Nat := s.foldl (fun n c => n * 10 + digVal c) 0

def digitChar (n : Nat) : Char := Char.ofNat ('0'.toNat + n)

def natDigitsAux : Nat → Nat → Str
  | 0, _ => []
  | fuel + 1, n => if n < 10 then [digitChar n] else natDigitsAux fuel (n / 10) ++ [digitChar (n % 10)]

/-- Decimal digit string of a natural number, as Python prints nonnegative
integers. -/
def natDigits (n : Nat) : Str := natDigitsAux (n + 1) n

/-- Left-pad with zeros to width `w`, as Python `f"{n:0wd}"` pads a
nonnegative number. -/
def zeroPad (w : Nat) (s : Str) : Str := List.replicate (w - s.length) '0' ++ s

/-- Models the Python format `f"{i:04d}"` on an integer. -/
def formatInt04 (i : Int) : Str :=
  if i < 0 then '-' :: zeroPad 3 (natDigits i.natAbs) else zeroPad 4 (natDigits i.toNat)

/-- Models Python `int(s)` on the identifier suffixes the allocator feeds it:
optional surrounding whitespace, optional sign, then decimal digits. -/
def pyInt (s : Str) : Option Int :=
  let t := pyStrip s
  let sgn : Int := if t.head? = some '-' then -1 else 1
  let body := if t.head? = some '-' ∨ t.head? = some '+' then t.tail else t
  if body ≠ [] ∧ body.all isDigit then some (sgn * (natOfDigits body : Int)) else none

/-- Consume a run of leading digits. -/
def takeDigits (s : Str) : Str × Str := (s.takeWhile isDigit, s.dropWhile isDigit)

/-- Parse an unsigned decimal mantissa: `digits`, `digits.digits`, `digits.`
or `.digits`, returning its exact rational value and the rest of the input. -/
def parseMantissa (s : Str) : Option (ℚ × Str) :=
  let ip := s.takeWhile isDigit
  let r1 := s.dropWhile isDigit
  if r1.head? = some '.' then
    let fp := r1.tail.takeWhile isDigit
    let r3 := r1.tail.dropWhile isDigit
    if ip = [] ∧ fp = [] then none
    else some ((natOfDigits ip : ℚ) + (natOfDigits fp : ℚ) / (10 : ℚ) ^ fp.length, r3)
  else if ip = [] then none else some ((natOfDigits ip : ℚ), r1)

/-- Models Python `float(s)` on finite decimal literals: optional surrounding
whitespace, optional sign, decimal mantissa, optional `e`/`E` exponent.  The
`inf`/`nan`/underscore spellings, which the repository never produces, are
outside the modelled domain.  The value is exact (a rational), matching the
round-trip behaviour of IEEE doubles on the decimal texts the code exchanges. -/
def pyFloat (s0 : Str) : Option ℚ :=
  let s := pyStrip s0
  let sgn : ℚ := if s.head? = some '-' then -1 else 1
  let body := if s.head? = some '-' ∨ s.head? = some '+' then s.tail else s
  match parseMantissa body with
  | none => none
  | some (m, r) =>
    if r = [] then some (sgn * m)
    else if r.head? = some 'e' ∨ r.head? = some 'E' then
      let r2 := r.tail
      let esgn : Int := if r2.head? = some '-' then -1 else 1
      let r3 := if r2.head? = some '-' ∨ r2.head? = some '+' then r2.tail else r2
      let ed := r3.takeWhile isDigit
      let r4 := r3.dropWhile isDigit
      if ed = [] ∨ r4 ≠ [] then none
      else some (sgn * m * (10 : ℚ) ^ (esgn * (natOfDigits ed : Int)))
    else none

/-- Number of times `p` divides `n`, with explicit fuel. -/
def countFacAux (p : Nat) : Nat → Nat → Nat
  | 0, _ => 0
  | fuel + 1, n => if n % p = 0 ∧ n ≠ 0 then countFacAux p fuel (n / p) + 1 else 0

/-- Smallest candidate decimal exponent for a denominator made of twos and
fives. -/
def decExp (d : Nat) : Nat := max (countFacAux 2 d d) (countFacAux 5 d d)

/-- Rationals that are exactly representable as finite decimals — the image of
the decimal literals the WKT texts carry (IEEE doubles are dyadic, hence all
lie in this class). -/
def IsDec (q : ℚ) : Prop := (q.den : Int) ∣ (10 : Int) ^ decExp q.den

instance (q : ℚ) : Decidable (IsDec q) := by
  unfold IsDec; infer_instance

/-- Models Python `str(x)` / f-string interpolation of a float in the plain
decimal regime: sign, integer digits, a decimal point, fraction digits
(`.0` for integral values). -/
def reprFloat (q : ℚ) : Str :=
  let sgnTxt : Str := if q < 0 then ['-'] else []
  let a : ℚ := |q|
  let k := decExp a.den
  let n := (a * (10 : ℚ) ^ k).num.toNat
  sgnTxt ++
    (if k = 0 then natDigits n ++ ['.', '0']
     else natDigits (n / 10 ^ k) ++ '.' :: zeroPad k (natDigits (n % 10 ^ k)))

/-- Translation of `_parse_point_wkt` (`app/main.py`, lines 51-72).  `none`
models a raised `ValueError`.  The parenthesised content is the slice
`txt[txt.find("(") + 1 : -1]`, commas are replaced by spaces, and the result
must split into exactly two tokens that both survive `float`. -/
def parse_point_wkt (wkt : Str) : Option (ℚ × ℚ) :=
  if wkt = [] then none
  else
    let txt := pyStrip wkt
    if (("point(").toList).isPrefixOf (pyLower txt) && List.isSuffixOf [')'] txt then
      let inner := pyStrip ((txt.drop (txt.findIdx (fun c => c = '(') + 1)).dropLast)
      match pySplitWs (commaToSpace inner) with
      | [a, b] =>
        match pyFloat a, pyFloat b with
        | some x, some y => some (x, y)
        | _, _ => none
      | _ => none
    else none

/-- Loop body of `_parse_linestring_wkt`: a comma-group is stripped and split
on whitespace; groups without exactly two tokens are skipped (`continue`), and
a surviving token that `float` rejects raises `ValueError` (`none`). -/
def lineGroupStep (acc : Option (List (ℚ × ℚ))) (part : Str) : Option (List (ℚ × ℚ)) :=
  match acc with
  | none => none
  | some coords =>
    match pySplitWs (pyStrip part) with
    | [a, b] =>
      match pyFloat a, pyFloat b with
      | some x, some y => some (coords ++ [(x, y)])
      | _, _ => none
    | _ => some coords

/-- Translation of `_parse_linestring_wkt` (`app/main.py`, lines 75-99).
Empty input or a text without the `LINESTRING(...)` envelope yields `some []`;
`none` models a `ValueError` escaping from `float` inside the loop. -/
def parse_linestring_wkt (wkt : Str) : Option (List (ℚ × ℚ)) :=
  if wkt = [] then some []
  else
    let txt := pyStrip wkt
    if (("linestring(").toList).isPrefixOf (pyLower txt) && List.isSuffixOf [')'] txt then
      let inner := pyStrip ((txt.drop (txt.findIdx (fun c => c = '(') + 1)).dropLast)
      (splitComma inner).foldl lineGroupStep (some [])
    else some []

/-- Rendering of one coordinate pair inside the f-string at
`app/main.py`, line 724. -/
def formatCoordPair (p : ℚ × ℚ) : Str := reprFloat p.1 ++ ' ' :: reprFloat p.2

/-- Joins coordinate-pair texts with the `", "` separator of the f-string. -/
def joinPairs : List Str → Str
  | [] => []
  | [g] => g
  | g :: gs => g ++ ',' :: ' ' :: joinPairs gs

/-- LINESTRING text builder: the f-string
`f"LINESTRING({x1} {y1}, {x2} {y2})"` of `crear_tuberia` generalised to a
list of vertices (space inside a pair, comma-space between pairs). -/
def formatLineString (pts : List (ℚ × ℚ)) : Str :=
  ("LINESTRING(").toList ++ joinPairs (pts.map formatCoordPair) ++ [')']

/-- Loop body of the scan in `get_next_estructura_id` (`app/main.py`,
lines 338-346): strip the prefix by length, `int(...)`, keep the running
maximum, skip on `ValueError`. -/
def estructuraScanStep (pfx : Str) (m : Int) (sid : Str) : Int :=
  match pyInt (sid.drop pfx.length) with
  | some num => if num > m then num else m
  | none => m

/-- Translation of `get_next_estructura_id` (`app/main.py`, lines 311-351)
after a valid token: `tipo` is normalised to choose the prefix, the SQL
`ilike(f"{prefix}%")` row filter is modelled as a case-insensitive prefix
filter over the stored identifiers, and the reply is
`f"{prefix}{max_num + 1:04d}"`. -/
def estructuraPfx (tipo : Str) : Str :=
  if pyLower (pyStrip tipo) = ("pozo").toList then ("pz").toList
  else if pyLower (pyStrip tipo) = ("sumidero").toList then ("sm").toList
  else ("es").toList

def get_next_estructura_id (tipo : Str) (ids : List Str) : Str :=
  let pfx := estructuraPfx tipo
  let rows := ids.filter (fun sid => pfx.isPrefixOf (pyLower sid))
  let max_num := rows.foldl (estructuraScanStep pfx) 0
  pfx ++ formatInt04 (max_num + 1)

/-- Loop body of the scan in `get_next_tuberia_id` (`app/main.py`,
lines 619-632): skip falsy ids, case-insensitive `startswith("tub")`, strip
three characters, `int(...)` with `ValueError` skipped. -/
def tuberiaScanStep (m : Int) (tid : Str) : Int :=
  if tid = [] then m
  else if ¬ ((("tub").toList).isPrefixOf (pyLower tid)) then m
  else
    match pyInt (tid.drop 3) with
    | some num => if num > m then num else m
    | none => m

/-- Translation of `get_next_tuberia_id` (`app/main.py`, lines 600-637) after
a valid token, over the list of all stored pipe ids. -/
def get_next_tuberia_id (ids : List Str) : Str :=
  let max_num := ids.foldl tuberiaScanStep 0
  ("tub").toList ++ formatInt04 (max_num + 1)

def listMaxD : List Int → Int → Int
  | [], d => d
  | x :: xs, d => max x (listMaxD xs d)

/-- Suffix numbers the allocator can extract for a prefix: case-insensitive
prefix filter, strip by length, integer parse with failures dropped. -/
def suffixNums (ids : List Str) (pfx : Str) : List Int :=
  (ids.filter (fun s => pfx.isPrefixOf (pyLower s))).filterMap
    (fun s => pyInt (s.drop pfx.length))

/-- Allocator as the specification words it: `maxNum` is the greatest parsed
suffix, or `0` if no suffix parses. -/
def nextIdClaim (ids : List Str) (pfx : Str) : Str :=
  let maxNum := match suffixNums ids pfx with
    | [] => 0
    | x :: xs => listMaxD xs x
  pfx ++ formatInt04 (maxNum + 1)

/-- Allocator specification amended to what the scan loop computes: the
running maximum starts at `0`, so only parsed suffixes exceeding `0` can ever
raise it. -/
def nextIdAmended (ids : List Str) (pfx : Str) : Str :=
  pfx ++ formatInt04 (listMaxD (suffixNums ids pfx) 0 + 1)

/-- Parenthesised, stripped content the point parser extracts. -/
def pointInner (wkt : Str) : Str :=
  let txt := pyStrip wkt
  pyStrip ((txt.drop (txt.findIdx (fun c => c = '(') + 1)).dropLast)

/-- Coordinate tokens of a POINT body after comma replacement. -/
def pointTokens (wkt : Str) : List Str := pySplitWs (commaToSpace (pointInner wkt))

/-- Failure condition of `parsePoint` as the specification enumerates it:
empty/whitespace input, missing `POINT(`...`)` envelope, wrong token count,
or a token rejected by numeric parse. -/
def pointFails (wkt : Str) : Prop :=
  pyStrip wkt = [] ∨
  ¬ (((("point(").toList).isPrefixOf (pyLower (pyStrip wkt)) = true) ∧
      (List.isSuffixOf [')'] (pyStrip wkt) = true)) ∨
  (∀ a b, pointTokens wkt ≠ [a, b]) ∨
  (∃ a b, pointTokens wkt = [a, b] ∧ ((pyFloat a).isNone ∨ (pyFloat b).isNone))

/-- Parenthesised, stripped content the linestring parser extracts. -/
def lineInner (wkt : Str) : Str :=
  let txt := pyStrip wkt
  pyStrip ((txt.drop (txt.findIdx (fun c => c = '(') + 1)).dropLast)

/-- Envelope test of the linestring parser. -/
def lineEnvelope (wkt : Str) : Bool :=
  ¬ wkt = [] &&
    ((("linestring(").toList).isPrefixOf (pyLower (pyStrip wkt)) &&
      List.isSuffixOf [')'] (pyStrip wkt))

/-- Group-by-group restatement of the linestring loop: a group without
exactly two whitespace tokens is skipped, a group whose two tokens both parse
contributes its point in order, and a two-token group with an unparseable
token is a `ValueError`. -/
def lineGroups : List Str → Option (List (ℚ × ℚ))
  | [] => some []
  | part :: rest =>
    match pySplitWs (pyStrip part) with
    | [a, b] =>
      match pyFloat a, pyFloat b with
      | some x, some y => (lineGroups rest).map (fun l => (x, y) :: l)
      | _, _ => none
    | _ => lineGroups rest


/-! ## Data model

Records carry the columns (`app/models.py`) and request fields
(`app/schemas.py`) that the verified endpoints read or write.  The inspection
attributes of `estructura_hidraulica` that no verified operation ever touches
are omitted; every `tuberia` column is present because the update endpoint's
frame property quantifies over all of them.  Stored geometry is modelled as
the WKT text that `ST_AsText` yields for it. -/

structure Usuario where
  id : Int
deriving DecidableEq

structure Proyecto where
  id : Int
  id_usuario : Int
deriving DecidableEq

structure EstructuraHidraulica where
  id : Str
  tipo : Str
  geometria : Option Str
  cota_estructura : Option ℚ
  id_proyecto : Int
deriving DecidableEq

structure Tuberia where
  id : Str
  geometria : Str
  diametro : Option ℚ
  material : Option Str
  flujo : Option Bool
  estado : Option Str
  sedimento : Bool
  cota_clave_inicio : Option ℚ
  cota_batea_inicio : Option ℚ
  profundidad_clave_inicio : Option ℚ
  profundidad_batea_inicio : Option ℚ
  cota_clave_destino : Option ℚ
  cota_batea_destino : Option ℚ
  profundidad_clave_destino : Option ℚ
  profundidad_batea_destino : Option ℚ
  grados : Option ℚ
  observaciones : Option Str
  id_estructura_inicio : Str
  id_estructura_destino : Str
deriving DecidableEq

/-- Request body of `POST /tuberias/` (`schemas.PipeCreate`); it has no
geometry field at all. -/
structure PipeCreate where
  id : Str
  diametro : Option ℚ
  material : Option Str
  flujo : Option Bool
  estado : Option Str
  sedimento : Bool
  cota_clave_inicio : Option ℚ
  cota_batea_inicio : Option ℚ
  profundidad_clave_inicio : Option ℚ
  profundidad_batea_inicio : Option ℚ
  cota_clave_destino : Option ℚ
  cota_batea_destino : Option ℚ
  profundidad_clave_destino : Option ℚ
  profundidad_batea_destino : Option ℚ
  grados : Option ℚ
  observaciones : Option Str
  id_estructura_inicio : Str
  id_estructura_destino : Str
deriving DecidableEq

/-- Request body of `PUT /tuberias/{id}` (`schemas.PipeUpdate`): every field
optional, no identity or geometry fields. -/
structure PipeUpdate where
  diametro : Option ℚ
  material : Option Str
  flujo : Option Bool
  estado : Option Str
  sedimento : Option Bool
  cota_clave_inicio : Option ℚ
  cota_batea_inicio : Option ℚ
  profundidad_clave_inicio : Option ℚ
  profundidad_batea_inicio : Option ℚ
  cota_clave_destino : Option ℚ
  cota_batea_destino : Option ℚ
  profundidad_clave_destino : Option ℚ
  profundidad_batea_destino : Option ℚ
  grados : Option ℚ
  observaciones : Option Str
deriving DecidableEq

structure Db where
  usuarios : List Usuario
  proyectos : List Proyecto
  estructuras : List EstructuraHidraulica
  tuberias : List Tuberia
deriving DecidableEq

/-- An `HTTPException`: status code plus detail message. -/
structure HttpErr where
  code : Nat
  detail : Str
deriving DecidableEq

/-- Translation of `get_user_by_token` (`app/auth_utils.py`, lines 20-36):
the in-memory token dictionary is modelled as an association list.  Python's
`if not user_id` also rejects a stored user id `0` (falsy). -/
def get_user_by_token (tokens : List (Str × Int)) (usuarios : List Usuario) (token : Str) :
    Except HttpErr Usuario :=
  match (tokens.find? (fun kv => kv.1 == token)).map (fun kv => kv.2) with
  | none => .error ⟨401, ("Token inválido o expirado").toList⟩
  | some uid =>
    if uid = 0 then .error ⟨401, ("Token inválido o expirado").toList⟩
    else
      match usuarios.find? (fun u => u.id == uid) with
      | none => .error ⟨401, ("Usuario no encontrado").toList⟩
      | some u => .ok u

/-- Primary-key lookup in the `estructura_hidraulica` table. -/
def findEstructura (es : List EstructuraHidraulica) (eid : Str) : Option EstructuraHidraulica :=
  es.find? (fun e => e.id == eid)

/-- Translation of `_get_point_from_structure` (`app/main.py`, lines 102-115):
`ST_AsText` of a missing row or NULL geometry is falsy and raises; otherwise
the WKT text goes through `_parse_point_wkt`.  `none` models the raised
`ValueError`. -/
def get_point_from_structure (es : List EstructuraHidraulica) (eid : Str) : Option (ℚ × ℚ) :=
  match findEstructura es eid with
  | none => none
  | some e =>
    match e.geometria with
    | none => none
    | some w => if w = [] then none else parse_point_wkt w

/-- Translation of `eliminar_estructura_hidraulica` (`app/main.py`,
lines 453-476): token check, lookup by id only (no project/ownership join),
then deletion of that row.  The database-side cascade onto dependent pipes is
outside this function.  Success returns the remaining structure rows. -/
def eliminar_estructura_hidraulica (db : Db) (tokens : List (Str × Int)) (estructura_id : Str)
    (token : Str) : Except HttpErr (List EstructuraHidraulica) :=
  match get_user_by_token tokens db.usuarios token with
  | .error e => .error e
  | .ok _ =>
    match findEstructura db.estructuras estructura_id with
    | none => .error ⟨404, ("Estructura no encontrada").toList⟩
    | some _ => .ok (db.estructuras.eraseP (fun e => e.id == estructura_id))

/-- Project ids owned by a user (`proyectos_ids_usuario` in `crear_tuberia`). -/
def userProjectIds (db : Db) (uid : Int) : List Int :=
  (db.proyectos.filter (fun p => p.id_usuario == uid)).map (fun p => p.id)

/-- Detail message of the 400 error raised by `crear_tuberia` when endpoint
geometry cannot be resolved. -/
def badGeometryMsg : Str :=
  ("No se pudo construir la geometría de la tubería. Verifica que las estructuras tengan geometría POINT válida.").toList

/-- Translation of `crear_tuberia` (`app/main.py`, lines 640-767): generate
the next pipe id from a scan of stored pipe ids, fetch both endpoint
structures (404), check both belong to the user's projects (403), resolve both
POINT geometries (any exception becomes a 400 with `badGeometryMsg`), build
the LINESTRING f-string, derive the clave elevations, and only then persist.
The second component is the pipe table after the request. -/
def crear_tuberia (db : Db) (tokens : List (Str × Int)) (data : PipeCreate) (token : Str) :
    Except HttpErr Tuberia × List Tuberia :=
  match get_user_by_token tokens db.usuarios token with
  | .error e => (.error e, db.tuberias)
  | .ok user =>
    let new_pipe_id :=
      ("tub").toList ++ formatInt04 ((db.tuberias.map (fun t => t.id)).foldl tuberiaScanStep 0 + 1)
    match findEstructura db.estructuras data.id_estructura_inicio,
          findEstructura db.estructuras data.id_estructura_destino with
    | some est_inicio, some est_dest =>
      if est_inicio.id_proyecto ∈ userProjectIds db user.id ∧
         est_dest.id_proyecto ∈ userProjectIds db user.id then
        match get_point_from_structure db.estructuras est_inicio.id,
              get_point_from_structure db.estructuras est_dest.id with
        | some (x1, y1), some (x2, y2) =>
          let geom := ("LINESTRING(").toList ++ reprFloat x1 ++ ' ' :: reprFloat y1 ++
            (", ").toList ++ reprFloat x2 ++ ' ' :: reprFloat y2 ++ [')']
          let cotaIni := match est_inicio.cota_estructura, data.profundidad_clave_inicio with
            | some ce, some pc => some (ce - pc)
            | _, _ => data.cota_clave_inicio
          let cotaDest := match est_dest.cota_estructura, data.profundidad_clave_destino with
            | some ce, some pc => some (ce - pc)
            | _, _ => data.cota_clave_destino
          let t : Tuberia :=
            { id := new_pipe_id
              geometria := geom
              diametro := data.diametro
              material := data.material
              flujo := data.flujo
              estado := data.estado
              sedimento := data.sedimento
              cota_clave_inicio := cotaIni
              cota_batea_inicio := data.cota_batea_inicio
              profundidad_clave_inicio := data.profundidad_clave_inicio
              profundidad_batea_inicio := data.profundidad_batea_inicio
              cota_clave_destino := cotaDest
              cota_batea_destino := data.cota_batea_destino
              profundidad_clave_destino := data.profundidad_clave_destino
              profundidad_batea_destino := data.profundidad_batea_destino
              grados := data.grados
              observaciones := data.observaciones
              id_estructura_inicio := data.id_estructura_inicio
              id_estructura_destino := data.id_estructura_destino }
          (.ok t, db.tuberias ++ [t])
        | _, _ => (.error ⟨400, badGeometryMsg⟩, db.tuberias)
      else
        (.error ⟨403, ("Las estructuras no pertenecen a proyectos del usuario").toList⟩,
          db.tuberias)
    | _, _ =>
      (.error ⟨404, ("Estructura de inicio o destino no encontrada").toList⟩, db.tuberias)

/-- The ownership join of `actualizar_tuberia` / `eliminar_tuberia`: the
pipe's start structure's project must belong to the user. -/
def ownsStartStructure (db : Db) (t : Tuberia) (uid : Int) : Bool :=
  match findEstructura db.estructuras t.id_estructura_inicio with
  | some e1 =>
    match db.proyectos.find? (fun p => p.id == e1.id_proyecto) with
    | some p => p.id_usuario == uid
    | none => false
  | none => false

/-- Field-wise update block of `actualizar_tuberia` (`app/main.py`,
lines 864-897): each request field is applied only when non-null; id,
geometry and both endpoint references are never touched. -/
def applyPipeUpdate (data : PipeUpdate) (t : Tuberia) : Tuberia :=
  { t with
    diametro := match data.diametro with | some v => some v | none => t.diametro
    material := match data.material with | some v => some v | none => t.material
    flujo := match data.flujo with | some v => some v | none => t.flujo
    estado := match data.estado with | some v => some v | none => t.estado
    sedimento := match data.sedimento with | some v => v | none => t.sedimento
    cota_clave_inicio :=
      match data.cota_clave_inicio with | some v => some v | none => t.cota_clave_inicio
    cota_batea_inicio :=
      match data.cota_batea_inicio with | some v => some v | none => t.cota_batea_inicio
    profundidad_clave_inicio :=
      match data.profundidad_clave_inicio with
      | some v => some v | none => t.profundidad_clave_inicio
    profundidad_batea_inicio :=
      match data.profundidad_batea_inicio with
      | some v => some v | none => t.profundidad_batea_inicio
    cota_clave_destino :=
      match data.cota_clave_destino with | some v => some v | none => t.cota_clave_destino
    cota_batea_destino :=
      match data.cota_batea_destino with | some v => some v | none => t.cota_batea_destino
    profundidad_clave_destino :=
      match data.profundidad_clave_destino with
      | some v => some v | none => t.profundidad_clave_destino
    profundidad_batea_destino :=
      match data.profundidad_batea_destino with
      | some v => some v | none => t.profundidad_batea_destino
    grados := match data.grados with | some v => some v | none => t.grados
    observaciones :=
      match data.observaciones with | some v => some v | none => t.observaciones }

/-- Translation of `actualizar_tuberia` (`app/main.py`, lines 825-902): find
the pipe by id joined through its start structure's project to the user
(404 otherwise), then apply the partial update and return the record. -/
def actualizar_tuberia (db : Db) (tokens : List (Str × Int)) (tuberia_id : Str) (token : Str)
    (data : PipeUpdate) : Except HttpErr Tuberia :=
  match get_user_by_token tokens db.usuarios token with
  | .error e => .error e
  | .ok user =>
    match db.tuberias.find? (fun t => t.id == tuberia_id && ownsStartStructure db t user.id) with
    | none =>
      .error ⟨404, ("Tubería no encontrada o no pertenece a proyectos del usuario").toList⟩
    | some t => .ok (applyPipeUpdate data t)

/-- One entry of the `pipes` list in the map payload. -/
structure MapPipe where
  id : Str
  id_estructura_inicio : Str
  id_estructura_destino : Str
  coords : List (ℚ × ℚ)
deriving DecidableEq

/-- The SQL row set of the pipes query in `get_project_map_data`: pipes whose
start structure belongs to the project.  The `t.geometria IS NOT NULL` filter
is vacuous here because the column is NOT NULL (`app/models.py`, line 152). -/
def mapPipeRows (db : Db) (pid : Int) : List Tuberia :=
  db.tuberias.filter (fun t =>
    match findEstructura db.estructuras t.id_estructura_inicio with
    | some e1 => e1.id_proyecto == pid
    | none => false)

/-- The assembly loop of `get_project_map_data` (`app/main.py`,
lines 1017-1029): parse each pipe's LINESTRING, drop (`continue`) pipes whose
coordinate list is empty, keep the rest in order.  `none` models a
`ValueError` escaping from the parser and aborting the whole request. -/
def assemblePipes : List Tuberia → Option (List MapPipe)
  | [] => some []
  | t :: rest =>
    match parse_linestring_wkt t.geometria with
    | none => none
    | some [] => assemblePipes rest
    | some cs =>
      (assemblePipes rest).map
        (fun l => ⟨t.id, t.id_estructura_inicio, t.id_estructura_destino, cs⟩ :: l)

/-- Translation of the pipes portion of `get_project_map_data`
(`app/main.py`, lines 949-1034): token check, the project must belong to the
user (404), then the assembly loop.  The structures portion of the payload is
a direct SQL projection (`ST_X`/`ST_Y`) not involved in any claim.  An
escaped `ValueError` surfaces as a server error, modelled with status 500. -/
def get_project_map_data (db : Db) (tokens : List (Str × Int)) (proyecto_id : Int)
    (token : Str) : Except HttpErr (List MapPipe) :=
  match get_user_by_token tokens db.usuarios token with
  | .error e => .error e
  | .ok user =>
    match db.proyectos.find? (fun p => p.id == proyecto_id && p.id_usuario == user.id) with
    | none => .error ⟨404, ("Proyecto no encontrado o no pertenece al usuario").toList⟩
    | some _ =>
      match assemblePipes (mapPipeRows db proyecto_id) with
      | none => .error ⟨500, ("ValueError").toList⟩
      | some pipes => .ok pipes

/-! ## Concrete fixtures used to instantiate the theorems -/

def uFix : Usuario := ⟨7⟩

def uOther : Usuario := ⟨9⟩

def pFix : Proyecto := ⟨1, 7⟩

def pOther : Proyecto := ⟨2, 9⟩

def e1Fix : EstructuraHidraulica :=
  { id := ("pz0001").toList
    tipo := ("Pozo").toList
    geometria := some (("POINT(1 2)").toList)
    cota_estructura := some 100
    id_proyecto := 1 }

def e2Fix : EstructuraHidraulica :=
  { id := ("pz0002").toList
    tipo := ("Pozo").toList
    geometria := some (("POINT(3 4)").toList)
    cota_estructura := some 95
    id_proyecto := 1 }

def eBadFix : EstructuraHidraulica :=
  { id := ("pz0003").toList
    tipo := ("Pozo").toList
    geometria := none
    cota_estructura := none
    id_proyecto := 1 }

def eOtherFix : EstructuraHidraulica :=
  { id := ("sm0001").toList
    tipo := ("Sumidero").toList
    geometria := some (("POINT(5 6)").toList)
    cota_estructura := none
    id_proyecto := 2 }

def tubFix : Tuberia :=
  { id := ("tub0001").toList
    geometria := ("LINESTRING(1.0 2.0, 3.0 4.0)").toList
    diametro := none
    material := none
    flujo := none
    estado := none
    sedimento := false
    cota_clave_inicio := some (195/2)
    cota_batea_inicio := none
    profundidad_clave_inicio := some (5/2)
    profundidad_batea_inicio := none
    cota_clave_destino := some 94
    cota_batea_destino := none
    profundidad_clave_destino := some 1
    profundidad_batea_destino := none
    grados := none
    observaciones := none
    id_estructura_inicio := ("pz0001").toList
    id_estructura_destino := ("pz0002").toList }

def tubEmptyFix : Tuberia :=
  { id := ("tub0002").toList
    geometria := ("LINESTRING()").toList
    diametro := none
    material := none
    flujo := none
    estado := none
    sedimento := false
    cota_clave_inicio := none
    cota_batea_inicio := none
    profundidad_clave_inicio := none
    profundidad_batea_inicio := none
    cota_clave_destino := none
    cota_batea_destino := none
    profundidad_clave_destino := none
    profundidad_batea_destino := none
    grados := none
    observaciones := none
    id_estructura_inicio := ("pz0001").toList
    id_estructura_destino := ("pz0002").toList }

def toksFix : List (Str × Int) := [(("tok").toList, 7)]

def dbFix : Db :=
  { usuarios := [uFix, uOther]
    proyectos := [pFix, pOther]
    estructuras := [e1Fix, e2Fix, eBadFix, eOtherFix]
    tuberias := [tubFix, tubEmptyFix] }

def dataFix : PipeCreate :=
  { id := ("ignored").toList
    diametro := some 8
    material := some (("PVC").toList)
    flujo := none
    estado := none
    sedimento := false
    cota_clave_inicio := none
    cota_batea_inicio := none
    profundidad_clave_inicio := some (5/2)
    profundidad_batea_inicio := none
    cota_clave_destino := none
    cota_batea_destino := none
    profundidad_clave_destino := some 1
    profundidad_batea_destino := none
    grados := none
    observaciones := none
    id_estructura_inicio := ("pz0001").toList
    id_estructura_destino := ("pz0002").toList }

def dataBadFix : PipeCreate :=
  { dataFix with id_estructura_destino := ("pz0003").toList }

def updFix : PipeUpdate :=
  { diametro := some 10
    material := none
    flujo := some true
    estado := none
    sedimento := none
    cota_clave_inicio := some 97
    cota_batea_inicio := none
    profundidad_clave_inicio := none
    profundidad_batea_inicio := none
    cota_clave_destino := none
    cota_batea_destino := none
    profundidad_clave_destino := none
    profundidad_batea_destino := none
    grados := none
    observaciones := some (("revisada").toList) }

/-! ## Character-level lemmas -/

theorem char_eq_of_toNat {a b : Char} (h : a.toNat = b.toNat) : a = b :=
  Char.ext (UInt32.ext h)

theorem char_eq_iff_toNat {a b : Char} : a = b ↔ a.toNat = b.toNat :=
  ⟨fun h => h ▸ rfl, char_eq_of_toNat⟩

theorem char_le_iff {a b : Char} : a ≤ b ↔ a.toNat ≤ b.toNat := Iff.rfl

theorem char_toNat_ofNat_valid {n : Nat} (h : n.isValidChar) : (Char.ofNat n).toNat = n := by
  unfold Char.ofNat
  rw [dif_pos h]
  unfold Char.ofNatAux
  simp [Char.toNat, UInt32.toNat]

theorem isDigit_iff {c : Char} : isDigit c = true ↔ 48 ≤ c.toNat ∧ c.toNat ≤ 57 := by
  have h0 : ('0').toNat = 48 := by decide
  have h9 : ('9').toNat = 57 := by decide
  simp [isDigit, char_le_iff, h0, h9]

theorem isPySpace_iff {c : Char} : isPySpace c = true ↔
    c.toNat = 32 ∨ c.toNat = 9 ∨ c.toNat = 10 ∨ c.toNat = 13 ∨
      c.toNat = 11 ∨ c.toNat = 12 := by
  have h : (' ').toNat = 32 ∧ ('\t').toNat = 9 ∧ ('\n').toNat = 10 ∧ ('\r').toNat = 13 ∧
      ('\x0b').toNat = 11 ∧ ('\x0c').toNat = 12 := by decide
  obtain ⟨h1, h2, h3, h4, h5, h6⟩ := h
  simp only [isPySpace, char_eq_iff_toNat, h1, h2, h3, h4, h5, h6, Bool.or_eq_true,
    decide_eq_true_eq]
  tauto

theorem not_space_of_digit {c : Char} (h : isDigit c = true) : isPySpace c = false := by
  cases hs : isPySpace c with
  | false => rfl
  | true =>
    rw [isPySpace_iff] at hs
    rw [isDigit_iff] at h
    omega

theorem digit_toNat_ne {c : Char} (h : isDigit c = true) {n : Nat}
    (hn : n < 48 ∨ 57 < n) : c.toNat ≠ n := by
  rw [isDigit_iff] at h
  omega

theorem lowerChar_toNat_of_upper {c : Char} (h : 65 ≤ c.toNat ∧ c.toNat ≤ 90) :
    (lowerChar c).toNat = c.toNat + 32 := by
  have hA : ('A').toNat = 65 := by decide
  have hZ : ('Z').toNat = 90 := by decide
  unfold lowerChar
  rw [if_pos ⟨char_le_iff.mpr (by omega), char_le_iff.mpr (by omega)⟩]
  exact char_toNat_ofNat_valid (Or.inl (by omega))

theorem lowerChar_eq_self_of_not_upper {c : Char} (h : ¬ (65 ≤ c.toNat ∧ c.toNat ≤ 90)) :
    lowerChar c = c := by
  have hA : ('A').toNat = 65 := by decide
  have hZ : ('Z').toNat = 90 := by decide
  unfold lowerChar
  rw [if_neg]
  intro hc
  exact h ⟨by rw [← hA]; exact char_le_iff.mp hc.1, by rw [← hZ]; exact char_le_iff.mp hc.2⟩

theorem lowerChar_of_digit {c : Char} (h : isDigit c = true) : lowerChar c = c := by
  rw [isDigit_iff] at h
  exact lowerChar_eq_self_of_not_upper (by omega)

theorem eq_digit_of_lowerChar {c d : Char} (hd : isDigit d = true) (h : lowerChar c = d) :
    c = d := by
  by_cases hc : 65 ≤ c.toNat ∧ c.toNat ≤ 90
  · exfalso
    have h1 := lowerChar_toNat_of_upper hc
    rw [h] at h1
    rw [isDigit_iff] at hd
    omega
  · rw [lowerChar_eq_self_of_not_upper hc] at h
    exact h

theorem eq_of_pyLower_digits {s t : Str} (ht : t.all isDigit = true) (h : pyLower s = t) :
    s = t := by
  induction s generalizing t with
  | nil =>
    simp only [pyLower, List.map_nil] at h
    exact h
  | cons c r ih =>
    cases t with
    | nil => simp [pyLower] at h
    | cons d u =>
      simp only [pyLower, List.map_cons, List.cons.injEq] at h
      simp only [List.all_cons, Bool.and_eq_true] at ht
      have hc := eq_digit_of_lowerChar ht.1 h.1
      exact by rw [hc, ih ht.2 h.2]

/-! ## Strip and split lemmas -/

theorem takeWhile_app_all {p : Char → Bool} {a b : Str} (h : ∀ c ∈ a, p c = true) :
    (a ++ b).takeWhile p = a ++ b.takeWhile p := by
  induction a with
  | nil => rfl
  | cons c l ih =>
    simp only [List.cons_append, List.takeWhile_cons, h c (by simp), if_true]
    rw [ih (fun c hc => h c (by simp [hc]))]

theorem takeWhile_cons_false {p : Char → Bool} {c : Char} {l : Str} (h : p c = false) :
    (c :: l).takeWhile p = [] := by
  simp [List.takeWhile_cons, h]

theorem dropWhile_app_all {p : Char → Bool} {a b : Str} (h : ∀ c ∈ a, p c = true) :
    (a ++ b).dropWhile p = b.dropWhile p := by
  induction a with
  | nil => rfl
  | cons c l ih =>
    simp only [List.cons_append, List.dropWhile_cons, h c (by simp)]
    exact ih (fun c hc => h c (by simp [hc]))

theorem dropWhile_cons_false {p : Char → Bool} {c : Char} {l : Str} (h : p c = false) :
    (c :: l).dropWhile p = c :: l := by
  simp [List.dropWhile_cons, h]

theorem lstrip_ws_app {ws s : Str} (h : ∀ c ∈ ws, isPySpace c = true) :
    lstrip (ws ++ s) = lstrip s :=
  dropWhile_app_all h

theorem lstrip_eq_self {s : Str} (h : ∀ c, s.head? = some c → isPySpace c = false) :
    lstrip s = s := by
  cases s with
  | nil => rfl
  | cons c l => exact dropWhile_cons_false (h c rfl)

theorem rstrip_app_ws {s ws : Str} (h : ∀ c ∈ ws, isPySpace c = true) :
    rstrip (s ++ ws) = rstrip s := by
  unfold rstrip
  rw [List.reverse_append, dropWhile_app_all (fun c hc => h c (by simpa using hc))]

theorem rstrip_eq_self {s : Str} (h : ∀ c, s.getLast? = some c → isPySpace c = false) :
    rstrip s = s := by
  induction s using List.reverseRecOn with
  | nil => rfl
  | append_singleton l c _ =>
    unfold rstrip
    rw [List.reverse_append]
    simp only [List.reverse_cons, List.reverse_nil, List.nil_append, List.singleton_append]
    rw [dropWhile_cons_false (h c (by simp [List.getLast?_concat]))]
    simp

theorem pyStrip_eq_self {s : Str} (hh : ∀ c, s.head? = some c → isPySpace c = false)
    (hl : ∀ c, s.getLast? = some c → isPySpace c = false) : pyStrip s = s := by
  unfold pyStrip
  rw [lstrip_eq_self hh, rstrip_eq_self hl]

theorem pyStrip_padded {ws1 ws2 core : Str} (hw1 : ∀ c ∈ ws1, isPySpace c = true)
    (hw2 : ∀ c ∈ ws2, isPySpace c = true) (hne : core ≠ [])
    (hh : ∀ c, core.head? = some c → isPySpace c = false)
    (hl : ∀ c, core.getLast? = some c → isPySpace c = false) :
    pyStrip (ws1 ++ core ++ ws2) = core := by
  unfold pyStrip
  have h1 : lstrip (ws1 ++ core ++ ws2) = core ++ ws2 := by
    rw [List.append_assoc, lstrip_ws_app hw1]
    cases core with
    | nil => exact absurd rfl hne
    | cons c rest =>
      exact lstrip_eq_self (fun d hd => by
        simp only [List.cons_append, List.head?_cons, Option.some.injEq] at hd
        exact hd ▸ hh c rfl)
  rw [h1, rstrip_app_ws hw2, rstrip_eq_self hl]

theorem splitP_ne_nil {p : Char → Bool} {s : Str} : splitP p s ≠ [] := by
  cases s with
  | nil => simp [splitP]
  | cons c l =>
    unfold splitP
    by_cases h : p c
    · simp [h]
    · simp only [h]
      cases hs : splitP p l <;> simp

theorem splitP_cons_true {p : Char → Bool} {c : Char} {s : Str} (h : p c = true) :
    splitP p (c :: s) = [] :: splitP p s := by
  simp [splitP, h]

theorem splitP_cons_false {p : Char → Bool} {c : Char} {s : Str} {g : Str} {gs : List Str}
    (h : p c = false) (hs : splitP p s = g :: gs) :
    splitP p (c :: s) = (c :: g) :: gs := by
  simp [splitP, h, hs]

theorem splitP_no_sep {p : Char → Bool} {s : Str} (h : ∀ c ∈ s, p c = false) :
    splitP p s = [s] := by
  induction s with
  | nil => rfl
  | cons c l ih =>
    exact splitP_cons_false (h c (by simp)) (ih (fun d hd => h d (by simp [hd])))

theorem splitP_app_sep {p : Char → Bool} {a b : Str} {c : Char}
    (ha : ∀ d ∈ a, p d = false) (hc : p c = true) :
    splitP p (a ++ c :: b) = a :: splitP p b := by
  induction a with
  | nil => simp only [List.nil_append] ; exact splitP_cons_true hc
  | cons d l ih =>
    exact splitP_cons_false (ha d (by simp)) (ih (fun e he => ha e (by simp [he])))

theorem splitP_ws_app {p : Char → Bool} {ws s : Str} (h : ∀ c ∈ ws, p c = true) :
    splitP p (ws ++ s) = List.replicate ws.length [] ++ splitP p s := by
  induction ws with
  | nil => rfl
  | cons c l ih =>
    rw [List.cons_append, splitP_cons_true (h c (by simp)),
      ih (fun d hd => h d (by simp [hd]))]
    rfl

theorem filter_ne_nil_replicate (n : Nat) :
    (List.replicate n ([] : Str)).filter (fun g => ¬ g = []) = [] := by
  induction n with
  | zero => rfl
  | succ m ih => simpa [List.replicate_succ] using ih

theorem pySplitWs_single {t : Str} (hne : t ≠ []) (h : ∀ c ∈ t, isPySpace c = false) :
    pySplitWs t = [t] := by
  unfold pySplitWs
  rw [splitP_no_sep h]
  simp [hne]

theorem pySplitWs_pair {tx sep ty : Str} (hx : tx ≠ []) (hy : ty ≠ [])
    (hxc : ∀ c ∈ tx, isPySpace c = false) (hyc : ∀ c ∈ ty, isPySpace c = false)
    (hsep : sep ≠ []) (hsepc : ∀ c ∈ sep, isPySpace c = true) :
    pySplitWs (tx ++ sep ++ ty) = [tx, ty] := by
  cases sep with
  | nil => exact absurd rfl hsep
  | cons c sep2 =>
    unfold pySplitWs
    rw [List.append_assoc, List.cons_append, splitP_app_sep hxc (hsepc c (by simp)),
      splitP_ws_app (fun d hd => hsepc d (by simp [hd])), splitP_no_sep hyc]
    simp only [List.filter_cons, List.filter_append, filter_ne_nil_replicate]
    simp [hx, hy]

/-! ## Decimal digit string lemmas -/

theorem foldl_digits (s : Str) : ∀ n : Nat,
    s.foldl (fun n c => n * 10 + digVal c) n = n * 10 ^ s.length + natOfDigits s := by
  induction s with
  | nil => intro n; simp [natOfDigits]
  | cons c l ih =>
    intro n
    have h2 : natOfDigits (c :: l) = digVal c * 10 ^ l.length + natOfDigits l := by
      show (c :: l).foldl _ 0 = _
      simp only [List.foldl_cons]
      rw [ih (0 * 10 + digVal c)]
      ring_nf
    simp only [List.foldl_cons, List.length_cons]
    rw [ih (n * 10 + digVal c), h2]
    ring

theorem natOfDigits_append (a b : Str) :
    natOfDigits (a ++ b) = natOfDigits a * 10 ^ b.length + natOfDigits b := by
  show (a ++ b).foldl _ 0 = _
  rw [List.foldl_append, foldl_digits b]
  rfl

theorem natOfDigits_single (c : Char) : natOfDigits [c] = digVal c := by
  simp [natOfDigits]

theorem natOfDigits_zeros (n : Nat) : natOfDigits (List.replicate n '0') = 0 := by
  induction n with
  | zero => rfl
  | succ m ih =>
    rw [List.replicate_succ,
      show ('0' :: List.replicate m '0') = ['0'] ++ List.replicate m '0' from rfl,
      natOfDigits_append, ih]
    have h0 : natOfDigits ['0'] = 0 := by decide
    rw [h0]
    simp

theorem natOfDigits_zeroPad (w : Nat) (s : Str) : natOfDigits (zeroPad w s) = natOfDigits s := by
  unfold zeroPad
  rw [natOfDigits_append, natOfDigits_zeros]
  simp

theorem digitChar_spec {m : Nat} (h : m < 10) :
    digVal (digitChar m) = m ∧ isDigit (digitChar m) = true ∧
      isPySpace (digitChar m) = false := by
  interval_cases m <;> exact ⟨by decide, by decide, by decide⟩

theorem natDigitsAux_spec : ∀ fuel n, n < fuel →
    natOfDigits (natDigitsAux fuel n) = n ∧ (natDigitsAux fuel n).all isDigit = true ∧
      natDigitsAux fuel n ≠ [] := by
  intro fuel
  induction fuel with
  | zero => intro n h; omega
  | succ f ih =>
    intro n h
    unfold natDigitsAux
    by_cases h10 : n < 10
    · rw [if_pos h10]
      have hd := digitChar_spec h10
      exact ⟨by rw [natOfDigits_single, hd.1], by simp [hd.2.1], by simp⟩
    · rw [if_neg h10]
      obtain ⟨hv, hall, hne⟩ := ih (n / 10) (by omega)
      have hd := digitChar_spec (Nat.mod_lt n (by omega) : n % 10 < 10)
      refine ⟨?_, ?_, by simp⟩
      · rw [natOfDigits_append, hv, natOfDigits_single, hd.1]
        simp only [List.length_singleton, pow_one]
        omega
      · simp [List.all_append, hall, hd.2.1]

theorem natDigits_val (n : Nat) : natOfDigits (natDigits n) = n :=
  (natDigitsAux_spec _ _ (Nat.lt_succ_self n)).1

theorem natDigits_all (n : Nat) : (natDigits n).all isDigit = true :=
  (natDigitsAux_spec _ _ (Nat.lt_succ_self n)).2.1

theorem natDigits_ne_nil (n : Nat) : natDigits n ≠ [] :=
  (natDigitsAux_spec _ _ (Nat.lt_succ_self n)).2.2

theorem natDigitsAux_len : ∀ fuel n d, n < fuel → n < 10 ^ d → 1 ≤ d →
    (natDigitsAux fuel n).length ≤ d := by
  intro fuel
  induction fuel with
  | zero => intro n d h; omega
  | succ f ih =>
    intro n d h hd h1
    unfold natDigitsAux
    by_cases h10 : n < 10
    · rw [if_pos h10]
      simpa using h1
    · rw [if_neg h10]
      have hd2 : 2 ≤ d := by
        by_contra hlt
        have hd1 : d = 1 := by omega
        subst hd1
        simp at hd
        omega
      have hq : n / 10 < 10 ^ (d - 1) := by
        have h10d : 10 ^ d = 10 ^ (d - 1) * 10 := by
          rw [← pow_succ]
          congr 1
          omega
        rw [h10d] at hd
        omega
      have := ih (n / 10) (d - 1) (by omega) hq (by omega)
      simp only [List.length_append, List.length_singleton]
      omega

theorem natDigits_len {n d : Nat} (h : n < 10 ^ d) (h1 : 1 ≤ d) :
    (natDigits n).length ≤ d :=
  natDigitsAux_len _ _ _ (Nat.lt_succ_self n) h h1

theorem all_digit_replicate_zero (n : Nat) :
    (List.replicate n '0').all isDigit = true := by
  induction n with
  | zero => rfl
  | succ m ih =>
    simp [List.replicate_succ, List.all_cons, ih, show isDigit ('0') = true from by decide]

theorem zeroPad_all {w : Nat} {s : Str} (h : s.all isDigit = true) :
    (zeroPad w s).all isDigit = true := by
  simp [zeroPad, List.all_append, all_digit_replicate_zero, h,
    show isDigit ('0') = true from by decide]

theorem zeroPad_len {w : Nat} {s : Str} (h : s.length ≤ w) : (zeroPad w s).length = w := by
  simp only [zeroPad, List.length_append, List.length_replicate]
  omega

theorem zeroPad_ne_nil {w : Nat} {s : Str} (h : s ≠ []) : zeroPad w s ≠ [] := by
  unfold zeroPad
  intro hc
  exact h (List.append_eq_nil.mp hc).2

theorem digit_ne_char {c : Char} (h : isDigit c = true) {d : Char}
    (hd : d.toNat < 48 ∨ 57 < d.toNat) : c ≠ d := by
  intro hc
  subst hc
  rw [isDigit_iff] at h
  omega

theorem pyStrip_of_all_digits {s : Str} (hd : s.all isDigit = true) : pyStrip s = s := by
  have hmem : ∀ c ∈ s, isDigit c = true := by simpa [List.all_eq_true] using hd
  exact pyStrip_eq_self
    (fun c hc => not_space_of_digit (hmem c (List.mem_of_mem_head? hc)))
    (fun c hc => not_space_of_digit (hmem c (List.mem_of_mem_getLast? hc)))

theorem pyInt_digits {s : Str} (hne : s ≠ []) (hd : s.all isDigit = true) :
    pyInt s = some ((natOfDigits s : Nat) : Int) := by
  have hmem : ∀ c ∈ s, isDigit c = true := by simpa [List.all_eq_true] using hd
  have hstrip := pyStrip_of_all_digits hd
  unfold pyInt
  rw [hstrip]
  cases s with
  | nil => exact absurd rfl hne
  | cons c r =>
    have hcd := hmem c (by simp)
    have hminus : ¬ ((c :: r).head? = some '-') := by
      simp only [List.head?_cons, Option.some.injEq]
      exact digit_ne_char hcd (by decide)
    have hplus : ¬ ((c :: r).head? = some '+') := by
      simp only [List.head?_cons, Option.some.injEq]
      exact digit_ne_char hcd (by decide)
    have hc1 : c ≠ '-' := digit_ne_char hcd (by decide)
    have hc2 : c ≠ '+' := digit_ne_char hcd (by decide)
    simp [hminus, hplus, hd, hc1, hc2]

/-! ## Float parsing and printing lemmas -/

theorem takeWhile_all {p : Char → Bool} {s : Str} (h : ∀ c ∈ s, p c = true) :
    s.takeWhile p = s := by
  have h2 := takeWhile_app_all (b := []) h
  simpa using h2

theorem dropWhile_all {p : Char → Bool} {s : Str} (h : ∀ c ∈ s, p c = true) :
    s.dropWhile p = [] := by
  have h2 := dropWhile_app_all (b := []) h
  simpa using h2

theorem clean_strip {s : Str} (h : ∀ c ∈ s, isPySpace c = false) : pyStrip s = s :=
  pyStrip_eq_self (fun c hc => h c (List.mem_of_mem_head? hc))
    (fun c hc => h c (List.mem_of_mem_getLast? hc))

theorem parseMantissa_decimal {ip fp : Str} (hip : ip.all isDigit = true)
    (hfp : fp.all isDigit = true) (hipne : ip ≠ []) :
    parseMantissa (ip ++ '.' :: fp) =
      some ((natOfDigits ip : ℚ) + (natOfDigits fp : ℚ) / (10 : ℚ) ^ fp.length, []) := by
  have hipm : ∀ c ∈ ip, isDigit c = true := by simpa [List.all_eq_true] using hip
  have hfpm : ∀ c ∈ fp, isDigit c = true := by simpa [List.all_eq_true] using hfp
  have hdot : isDigit ('.') = false := by decide
  unfold parseMantissa
  rw [takeWhile_app_all hipm, takeWhile_cons_false hdot, dropWhile_app_all hipm,
    dropWhile_cons_false hdot]
  simp only [List.append_nil, List.head?_cons, List.tail_cons]
  rw [if_pos trivial, takeWhile_all hfpm, dropWhile_all hfpm, if_neg (fun hc => hipne hc.1)]

theorem decimal_token_clean {ip fp : Str} (hip : ip.all isDigit = true)
    (hfp : fp.all isDigit = true) :
    ∀ c ∈ ip ++ '.' :: fp, isPySpace c = false := by
  have hipm : ∀ c ∈ ip, isDigit c = true := by simpa [List.all_eq_true] using hip
  have hfpm : ∀ c ∈ fp, isDigit c = true := by simpa [List.all_eq_true] using hfp
  intro c hc
  rcases List.mem_append.mp hc with h1 | h1
  · exact not_space_of_digit (hipm c h1)
  · rcases List.mem_cons.mp h1 with h2 | h2
    · subst h2; decide
    · exact not_space_of_digit (hfpm c h2)

theorem pyFloat_decimal {ip fp : Str} (hip : ip.all isDigit = true)
    (hfp : fp.all isDigit = true) (hipne : ip ≠ []) :
    pyFloat (ip ++ '.' :: fp) =
      some ((natOfDigits ip : ℚ) + (natOfDigits fp : ℚ) / (10 : ℚ) ^ fp.length) := by
  have hipm : ∀ c ∈ ip, isDigit c = true := by simpa [List.all_eq_true] using hip
  unfold pyFloat
  rw [clean_strip (decimal_token_clean hip hfp)]
  cases ip with
  | nil => exact absurd rfl hipne
  | cons c ipr =>
    have hcd := hipm c (by simp)
    have hc1 : c ≠ '-' := digit_ne_char hcd (by decide)
    have hc2 : c ≠ '+' := digit_ne_char hcd (by decide)
    have hm : ¬ (((c :: ipr) ++ '.' :: fp).head? = some '-') := by
      simp only [List.cons_append, List.head?_cons, Option.some.injEq]
      exact hc1
    have hp : ¬ (((c :: ipr) ++ '.' :: fp).head? = some '+') := by
      simp only [List.cons_append, List.head?_cons, Option.some.injEq]
      exact hc2
    simp only [List.cons_append, List.head?_cons, Option.some.injEq, hc1, hc2, if_false,
      or_self, ite_false]
    rw [← List.cons_append, parseMantissa_decimal hip hfp hipne]
    simp

theorem pyFloat_neg_decimal {ip fp : Str} (hip : ip.all isDigit = true)
    (hfp : fp.all isDigit = true) (hipne : ip ≠ []) :
    pyFloat ('-' :: (ip ++ '.' :: fp)) =
      some (-((natOfDigits ip : ℚ) + (natOfDigits fp : ℚ) / (10 : ℚ) ^ fp.length)) := by
  have hclean : ∀ c ∈ '-' :: (ip ++ '.' :: fp), isPySpace c = false := by
    intro c hc
    rcases List.mem_cons.mp hc with h2 | h2
    · subst h2; decide
    · exact decimal_token_clean hip hfp c h2
  unfold pyFloat
  rw [clean_strip hclean]
  simp [parseMantissa_decimal hip hfp hipne]

theorem den_abs (q : ℚ) : |q|.den = q.den := by
  rcases abs_cases q with ⟨h, _⟩ | ⟨h, _⟩
  · rw [h]
  · rw [h, Rat.neg_den]

theorem reprFloat_eq_decimal {q : ℚ} (hq : 0 ≤ q) (h : IsDec q) :
    ∃ ip fp, reprFloat q = ip ++ '.' :: fp ∧ ip.all isDigit = true ∧
      fp.all isDigit = true ∧ ip ≠ [] ∧
      (natOfDigits ip : ℚ) + (natOfDigits fp : ℚ) / (10 : ℚ) ^ fp.length = q := by
  unfold IsDec at h
  obtain ⟨c, hc⟩ := h
  have hc0 : 0 ≤ c := by
    by_contra hneg
    push_neg at hneg
    have h1 : (0 : Int) < 10 ^ decExp q.den := by positivity
    have h2 : (0 : Int) < (q.den : Int) := by
      exact_mod_cast q.den_pos
    nlinarith
  have hnum0 : 0 ≤ q.num := Rat.num_nonneg.mpr hq
  have h10 : ((10 : ℚ)) ^ decExp q.den = (q.den : ℚ) * (c : ℚ) := by
    have h3 := congrArg (fun z : Int => (z : ℚ)) hc
    push_cast at h3
    exact h3
  have hmul : q * (10 : ℚ) ^ decExp q.den = ((q.num * c : ℤ) : ℚ) := by
    rw [h10, show q * ((q.den : ℚ) * (c : ℚ)) = q * (q.den : ℚ) * (c : ℚ) from by ring,
      Rat.mul_den_eq_num]
    push_cast
    ring
  have hnum : (q * (10 : ℚ) ^ decExp q.den).num = q.num * c := by
    rw [hmul, Rat.num_intCast]
  set k := decExp q.den with hk
  set n := (q * (10 : ℚ) ^ k).num.toNat with hn
  have hncast : ((n : ℤ)) = q.num * c := by
    rw [hn, hnum, Int.toNat_of_nonneg (by positivity)]
  have hnq : ((n : ℚ)) = q * (10 : ℚ) ^ k := by
    rw [hmul]
    exact_mod_cast congrArg (fun z : Int => (z : ℚ)) hncast
  have hrepr : reprFloat q = (if k = 0 then natDigits n ++ ['.', '0']
      else natDigits (n / 10 ^ k) ++ '.' :: zeroPad k (natDigits (n % 10 ^ k))) := by
    unfold reprFloat
    rw [abs_of_nonneg hq, if_neg (not_lt.mpr hq)]
    rfl
  by_cases hk0 : k = 0
  · refine ⟨natDigits n, ['0'], ?_, natDigits_all n, by decide, natDigits_ne_nil n, ?_⟩
    · rw [hrepr, if_pos hk0]
    · have h0 : natOfDigits ['0'] = 0 := by decide
      rw [natDigits_val, h0]
      rw [hk0] at hnq
      simp only [pow_zero, mul_one] at hnq
      simp [hnq.symm]
  · refine ⟨natDigits (n / 10 ^ k), zeroPad k (natDigits (n % 10 ^ k)), ?_,
      natDigits_all _, zeroPad_all (natDigits_all _), natDigits_ne_nil _, ?_⟩
    · rw [hrepr, if_neg hk0]
    · have hlen : (zeroPad k (natDigits (n % 10 ^ k))).length = k :=
        zeroPad_len (natDigits_len (Nat.mod_lt n (by positivity)) (by omega))
      rw [natDigits_val, natOfDigits_zeroPad, natDigits_val, hlen]
      have hdm := Nat.div_add_mod n (10 ^ k)
      have hcast : (10 : ℚ) ^ k * ((n / 10 ^ k : Nat) : ℚ) + ((n % 10 ^ k : Nat) : ℚ)
          = (n : ℚ) := by
        exact_mod_cast congrArg (fun z : Nat => (z : ℚ)) hdm
      have h100 : ((10 : ℚ)) ^ k ≠ 0 := by positivity
      field_simp
      nlinarith [hcast, hnq]

theorem reprFloat_neg {q : ℚ} (hq : q < 0) : reprFloat q = '-' :: reprFloat (-q) := by
  unfold reprFloat
  rw [if_pos hq, if_neg (not_lt.mpr (neg_nonneg.mpr hq.le)), abs_neg]
  simp

theorem IsDec_neg {q : ℚ} (h : IsDec q) : IsDec (-q) := by
  unfold IsDec at h ⊢
  rw [Rat.neg_den]
  exact h

theorem pyFloat_reprFloat {q : ℚ} (h : IsDec q) : pyFloat (reprFloat q) = some q := by
  rcases le_or_lt 0 q with hq | hq
  · obtain ⟨ip, fp, heq, hip, hfp, hipne, hval⟩ := reprFloat_eq_decimal hq h
    rw [heq, pyFloat_decimal hip hfp hipne, hval]
  · obtain ⟨ip, fp, heq, hip, hfp, hipne, hval⟩ :=
      reprFloat_eq_decimal (neg_nonneg.mpr hq.le) (IsDec_neg h)
    rw [reprFloat_neg hq, heq, pyFloat_neg_decimal hip hfp hipne, hval]
    simp

/-! ## Token shape of printed floats -/

theorem mem_natDigits_digit {c : Char} {m : Nat} (h : c ∈ natDigits m) : isDigit c = true := by
  have h2 := natDigits_all m
  rw [List.all_eq_true] at h2
  exact h2 c h

theorem reprFloat_chars {q : ℚ} : ∀ c ∈ reprFloat q, isDigit c = true ∨ c = '.' ∨ c = '-' := by
  intro c hc
  unfold reprFloat at hc
  simp only [] at hc
  rcases List.mem_append.mp hc with h1 | h1
  · by_cases hq : q < 0
    · rw [if_pos hq] at h1
      right; right
      simpa using h1
    · rw [if_neg hq] at h1
      simp at h1
  · split at h1
    · rcases List.mem_append.mp h1 with h2 | h2
      · exact Or.inl (mem_natDigits_digit h2)
      · rcases List.mem_cons.mp h2 with h3 | h3
        · exact Or.inr (Or.inl h3)
        · left
          rcases List.mem_cons.mp h3 with h4 | h4
          · subst h4; decide
          · simp at h4
    · rcases List.mem_append.mp h1 with h2 | h2
      · exact Or.inl (mem_natDigits_digit h2)
      · rcases List.mem_cons.mp h2 with h3 | h3
        · exact Or.inr (Or.inl h3)
        · left
          unfold zeroPad at h3
          rcases List.mem_append.mp h3 with h4 | h4
          · rw [List.eq_of_mem_replicate h4]; decide
          · exact mem_natDigits_digit h4

theorem reprFloat_not_space {q : ℚ} : ∀ c ∈ reprFloat q, isPySpace c = false := by
  intro c hc
  rcases reprFloat_chars c hc with h | h | h
  · exact not_space_of_digit h
  · subst h; decide
  · subst h; decide

theorem reprFloat_not_comma {q : ℚ} : ∀ c ∈ reprFloat q, ¬ c = ',' := by
  intro c hc
  rcases reprFloat_chars c hc with h | h | h
  · exact digit_ne_char h (by decide)
  · subst h; decide
  · subst h; decide

theorem reprFloat_ne_nil {q : ℚ} : reprFloat q ≠ [] := by
  unfold reprFloat
  simp only []
  intro hc
  rcases List.append_eq_nil.mp hc with ⟨_, h2⟩
  split at h2
  · exact List.append_ne_nil_of_left_ne_nil (natDigits_ne_nil _) _ h2
  · exact List.append_ne_nil_of_left_ne_nil (natDigits_ne_nil _) _ h2

/-! ## Formatting and reparsing LINESTRING texts -/

theorem formatCoordPair_ne_nil {p : ℚ × ℚ} : formatCoordPair p ≠ [] := by
  unfold formatCoordPair
  exact List.append_ne_nil_of_left_ne_nil reprFloat_ne_nil _

theorem formatCoordPair_not_comma {p : ℚ × ℚ} : ∀ c ∈ formatCoordPair p, ¬ c = ',' := by
  intro c hc
  unfold formatCoordPair at hc
  rcases List.mem_append.mp hc with h1 | h1
  · exact reprFloat_not_comma c h1
  · rcases List.mem_cons.mp h1 with h2 | h2
    · subst h2; decide
    · exact reprFloat_not_comma c h2

theorem formatCoordPair_head {p : ℚ × ℚ} :
    ∀ c, (formatCoordPair p).head? = some c → isPySpace c = false := by
  intro c hc
  unfold formatCoordPair at hc
  rw [List.head?_append_of_ne_nil _ reprFloat_ne_nil] at hc
  exact reprFloat_not_space c (List.mem_of_mem_head? hc)

theorem formatCoordPair_last {p : ℚ × ℚ} :
    ∀ c, (formatCoordPair p).getLast? = some c → isPySpace c = false := by
  intro c hc
  unfold formatCoordPair at hc
  rw [List.getLast?_append_of_ne_nil _ (by simp : (' ' :: reprFloat p.2 : Str) ≠ [])] at hc
  have h2 : (' ' :: reprFloat p.2 : Str).getLast? = (reprFloat p.2).getLast? := by
    have : (reprFloat p.2 : Str) ≠ [] → ([' '] ++ reprFloat p.2).getLast? = (reprFloat p.2).getLast? :=
      fun hh => List.getLast?_append_of_ne_nil _ hh
    have := this reprFloat_ne_nil
    simpa using this
  rw [h2] at hc
  exact reprFloat_not_space c (List.mem_of_mem_getLast? hc)

theorem joinPairs_head {g : Str} {gs : List Str} (hg : g ≠ []) :
    (joinPairs (g :: gs)).head? = g.head? := by
  cases gs with
  | nil => rfl
  | cons g2 gs2 =>
    show (g ++ ',' :: ' ' :: joinPairs (g2 :: gs2)).head? = g.head?
    exact List.head?_append_of_ne_nil _ hg

theorem joinPairs_last {g : Str} {gs : List Str}
    (h : ∀ x ∈ g :: gs, x ≠ []) :
    ∀ c, (joinPairs (g :: gs)).getLast? = some c →
      ∃ x ∈ g :: gs, x.getLast? = some c := by
  induction gs generalizing g with
  | nil =>
    intro c hc
    exact ⟨g, by simp, hc⟩
  | cons g2 gs2 ih =>
    intro c hc
    show ∃ x ∈ g :: g2 :: gs2, x.getLast? = some c
    have hx : (joinPairs (g :: g2 :: gs2)).getLast? = (joinPairs (g2 :: gs2)).getLast? := by
      show (g ++ ',' :: ' ' :: joinPairs (g2 :: gs2)).getLast? = _
      rw [List.getLast?_append_of_ne_nil _ (by simp : (',' :: ' ' :: joinPairs (g2 :: gs2) : Str) ≠ [])]
      have h2 : joinPairs (g2 :: gs2) ≠ [] →
          ([',', ' '] ++ joinPairs (g2 :: gs2)).getLast? = (joinPairs (g2 :: gs2)).getLast? :=
        fun hh => List.getLast?_append_of_ne_nil _ hh
      cases hj : joinPairs (g2 :: gs2) with
      | nil =>
        exfalso
        have hg2 := h g2 (by simp)
        cases gs2 with
        | nil => exact hg2 hj
        | cons g3 gs3 =>
          exact List.append_ne_nil_of_left_ne_nil hg2 _ hj
      | cons d ds =>
        have h3 := h2 (by simp [hj])
        rw [hj] at h3
        simpa using h3
    rw [hx] at hc
    obtain ⟨x, hx1, hx2⟩ := ih (fun x hxm => h x (by simp at hxm ⊢; tauto)) c hc
    exact ⟨x, by simp at hx1 ⊢; tauto, hx2⟩

theorem splitComma_joinPairs {g : Str} {gs : List Str}
    (h : ∀ x ∈ g :: gs, ∀ c ∈ x, ¬ c = ',') :
    splitComma (joinPairs (g :: gs)) = g :: gs.map (fun x => ' ' :: x) := by
  induction gs generalizing g with
  | nil =>
    show splitP _ (joinPairs [g]) = [g]
    exact splitP_no_sep (fun c hc => by
      simpa using h g (by simp) c hc)
  | cons g2 gs2 ih =>
    show splitP _ (g ++ ',' :: ' ' :: joinPairs (g2 :: gs2)) = _
    rw [splitP_app_sep (fun d hd => by simpa using h g (by simp) d hd) (by simp)]
    have ih2 := ih (g := g2) (fun x hx c hc => h x (by simp at hx ⊢; tauto) c hc)
    have hsp : splitP (fun c => c = ',') (' ' :: joinPairs (g2 :: gs2)) =
        (' ' :: g2) :: gs2.map (fun x => ' ' :: x) := by
      have : splitComma (joinPairs (g2 :: gs2)) = g2 :: gs2.map (fun x => ' ' :: x) := ih2
      unfold splitComma at this
      exact splitP_cons_false (by simp) this
    rw [hsp]
    rfl

theorem findIdx_append_false {p : Char → Bool} {a b : Str} (h : ∀ c ∈ a, p c = false) :
    (a ++ b).findIdx p = a.length + b.findIdx p := by
  induction a with
  | nil => simp
  | cons c l ih =>
    simp only [List.cons_append, List.findIdx_cons, h c (by simp), cond_false,
      List.length_cons]
    rw [ih (fun d hd => h d (by simp [hd]))]
    omega

theorem lineGroupStep_token {x y : ℚ} (hx : IsDec x) (hy : IsDec y)
    (acc : List (ℚ × ℚ)) {ws : Str} (hws : ∀ c ∈ ws, isPySpace c = true) :
    lineGroupStep (some acc) (ws ++ formatCoordPair (x, y)) = some (acc ++ [(x, y)]) := by
  unfold lineGroupStep
  have hstrip : pyStrip (ws ++ formatCoordPair (x, y)) = formatCoordPair (x, y) := by
    have h2 := @pyStrip_padded ws [] (formatCoordPair (x, y)) hws
      (by simp) formatCoordPair_ne_nil formatCoordPair_head formatCoordPair_last
    simpa using h2
  rw [hstrip]
  have hshape : formatCoordPair (x, y) = (reprFloat x ++ [' ']) ++ reprFloat y := by
    simp [formatCoordPair]
  have hsplit : pySplitWs (formatCoordPair (x, y)) = [reprFloat x, reprFloat y] := by
    rw [hshape]
    exact pySplitWs_pair reprFloat_ne_nil reprFloat_ne_nil reprFloat_not_space
      reprFloat_not_space (by simp)
      (by intro c hc; simp at hc; subst hc; decide)
  rw [hsplit]
  simp [pyFloat_reprFloat hx, pyFloat_reprFloat hy]

theorem fold_line_tail (pts : List (ℚ × ℚ)) (h : ∀ p ∈ pts, IsDec p.1 ∧ IsDec p.2) :
    ∀ acc, ((pts.map formatCoordPair).map (fun g => ' ' :: g)).foldl lineGroupStep (some acc)
      = some (acc ++ pts) := by
  induction pts with
  | nil => intro acc; simp
  | cons p rest ih =>
    intro acc
    obtain ⟨x, y⟩ := p
    simp only [List.map_cons, List.foldl_cons]
    have hp := h (x, y) (by simp)
    have hstep : lineGroupStep (some acc) (' ' :: formatCoordPair (x, y)) = some (acc ++ [(x, y)]) := by
      have h2 := @lineGroupStep_token x y hp.1 hp.2 acc [' ']
        (by intro c hc; simp at hc; subst hc; decide)
      simpa using h2
    rw [hstep, ih (fun q hq => h q (by simp [hq])) (acc ++ [(x, y)])]
    simp

theorem parse_formatLineString (pts : List (ℚ × ℚ)) (hne : pts ≠ [])
    (h : ∀ p ∈ pts, IsDec p.1 ∧ IsDec p.2) :
    parse_linestring_wkt (formatLineString pts) = some pts := by
  cases pts with
  | nil => exact absurd rfl hne
  | cons p rest =>
    obtain ⟨x, y⟩ := p
    have hp := h (x, y) (by simp)
    set g1 := formatCoordPair (x, y) with hg1
    set inn := joinPairs (((x, y) :: rest).map formatCoordPair) with hinn
    have hfmt : formatLineString ((x, y) :: rest) =
        ("LINESTRING(").toList ++ inn ++ [')'] := rfl
    have hinn_head : ∀ c, inn.head? = some c → isPySpace c = false := by
      intro c hc
      rw [hinn] at hc
      simp only [List.map_cons] at hc
      rw [joinPairs_head formatCoordPair_ne_nil] at hc
      exact formatCoordPair_head c hc
    have hinn_last : ∀ c, inn.getLast? = some c → isPySpace c = false := by
      intro c hc
      rw [hinn] at hc
      simp only [List.map_cons] at hc
      obtain ⟨xg, hxg, hlast⟩ := joinPairs_last
        (by
          intro z hz
          rcases List.mem_cons.mp hz with h1 | h1
          · subst h1; exact formatCoordPair_ne_nil
          · obtain ⟨q, _, hq2⟩ := List.mem_map.mp h1
            rw [← hq2]; exact formatCoordPair_ne_nil) c hc
      rcases List.mem_cons.mp hxg with h1 | h1
      · subst h1; exact formatCoordPair_last c hlast
      · obtain ⟨q, _, hq2⟩ := List.mem_map.mp h1
        subst hq2
        exact formatCoordPair_last c hlast
    have hinn_ne : inn ≠ [] := by
      rw [hinn]
      simp only [List.map_cons]
      cases hrest : rest.map formatCoordPair with
      | nil => exact formatCoordPair_ne_nil
      | cons a as => exact List.append_ne_nil_of_left_ne_nil formatCoordPair_ne_nil _
    rw [hfmt]
    unfold parse_linestring_wkt
    have hwne : (("LINESTRING(").toList ++ inn ++ [')'] : Str) ≠ [] := by
      intro hc
      have := List.append_eq_nil.mp hc
      simp at this
    rw [if_neg hwne]
    have hstrip : pyStrip (("LINESTRING(").toList ++ inn ++ [')']) =
        ("LINESTRING(").toList ++ inn ++ [')'] := by
      apply pyStrip_eq_self
      · intro c hc
        rw [List.append_assoc, List.head?_append_of_ne_nil _ (by decide)] at hc
        have : c = 'L' := by
          have h2 : (("LINESTRING(").toList : Str).head? = some 'L' := by decide
          rw [h2] at hc
          exact (Option.some.injEq _ _ ▸ hc).symm ▸ rfl
        subst this; decide
      · intro c hc
        rw [List.getLast?_append_of_ne_nil _ (by simp : ([')'] : Str) ≠ [])] at hc
        simp only [List.getLast?_singleton, Option.some.injEq] at hc
        subst hc; decide
    rw [hstrip]
    have hpreftest : (("linestring(").toList).isPrefixOf
        (pyLower (("LINESTRING(").toList ++ inn ++ [')'])) = true := by
      rw [ List.isPrefixOf_iff_prefix]
      unfold pyLower
      rw [List.append_assoc, List.map_append]
      have : (("LINESTRING(").toList).map lowerChar = ("linestring(").toList := by decide
      rw [this]
      exact List.prefix_append _ _
    have hsuftest : List.isSuffixOf [')'] (("LINESTRING(").toList ++ inn ++ [')']) = true := by
      rw [List.isSuffixOf_iff_suffix]
      exact List.suffix_append _ _
    rw [if_pos (by rw [hpreftest, hsuftest]; rfl)]
    have hidx : (("LINESTRING(").toList ++ inn ++ [')']).findIdx (fun c => c = '(') = 10 := by
      have hshape : (("LINESTRING(").toList ++ inn ++ [')'] : Str) =
          ("LINESTRING").toList ++ '(' :: (inn ++ [')']) := by
        simp
      rw [hshape, findIdx_append_false (by decide)]
      simp [List.findIdx_cons]
    rw [hidx]
    have hdrop : (("LINESTRING(").toList ++ inn ++ [')']).drop (10 + 1) = inn ++ [')'] := by
      rw [List.append_assoc,
        show (10 + 1 : Nat) = (("LINESTRING(").toList : Str).length from by decide]
      exact List.drop_left _ _
    rw [hdrop, List.dropLast_concat, pyStrip_eq_self hinn_head hinn_last]
    have hsplit : splitComma inn = g1 :: (rest.map formatCoordPair).map (fun z => ' ' :: z) := by
      rw [hinn]
      simp only [List.map_cons]
      exact splitComma_joinPairs (by
        intro z hz c hc
        rcases List.mem_cons.mp hz with h1 | h1
        · subst h1; exact formatCoordPair_not_comma c hc
        · obtain ⟨q, _, hq2⟩ := List.mem_map.mp h1
          subst hq2
          exact formatCoordPair_not_comma c hc)
    show List.foldl lineGroupStep (some []) (splitComma inn) = some ((x, y) :: rest)
    rw [hsplit]
    simp only [List.foldl_cons]
    have hfirst : lineGroupStep (some []) g1 = some [(x, y)] := by
      have h2 := @lineGroupStep_token x y hp.1 hp.2 [] [] (by simp)
      simpa [hg1] using h2
    rw [hfirst, fold_line_tail rest (fun q hq => h q (by simp [hq])) [(x, y)]]
    rfl

/-! ## Identifier allocator lemmas -/

theorem listMaxD_maxD (l : List Int) (v m : Int) :
    listMaxD l (max v m) = max v (listMaxD l m) := by
  induction l with
  | nil => rfl
  | cons x t ih =>
    show max x (listMaxD t (max v m)) = max v (max x (listMaxD t m))
    rw [ih]
    rw [max_left_comm]

theorem foldl_scanStep_eq_max (pfx : Str) : ∀ (l : List Str) (m : Int),
    l.foldl (estructuraScanStep pfx) m
      = listMaxD (l.filterMap (fun s => pyInt (s.drop pfx.length))) m := by
  intro l
  induction l with
  | nil => intro m; rfl
  | cons s t ih =>
    intro m
    simp only [List.foldl_cons, List.filterMap_cons]
    cases hv : pyInt (s.drop pfx.length) with
    | none =>
      simp only [estructuraScanStep, hv]
      exact ih m
    | some v =>
      simp only [estructuraScanStep, hv]
      have hmax : (if v > m then v else m) = max v m := by
        rcases le_or_lt v m with h | h
        · rw [if_neg (by omega), max_eq_right h]
        · rw [if_pos h, max_eq_left h.le]
      rw [hmax, ih (max v m)]
      exact listMaxD_maxD _ v m

theorem get_next_estructura_eq_amended (tipo : Str) (ids : List Str) :
    get_next_estructura_id tipo ids = nextIdAmended ids (estructuraPfx tipo) := by
  unfold get_next_estructura_id nextIdAmended suffixNums
  simp only [foldl_scanStep_eq_max]

theorem tubStep_eq_estructuraStep (m : Int) (s : Str)
    (hne : s ≠ []) (hpf : (("tub").toList).isPrefixOf (pyLower s) = true) :
    tuberiaScanStep m s = estructuraScanStep (("tub").toList) m s := by
  unfold tuberiaScanStep estructuraScanStep
  rw [if_neg hne, if_neg (by rw [hpf]; simp),
    show ((("tub").toList : Str)).length = 3 from rfl]

theorem foldl_tubStep_eq (ids : List Str) : ∀ m : Int,
    ids.foldl tuberiaScanStep m
      = (ids.filter (fun s => (("tub").toList).isPrefixOf (pyLower s))).foldl
          (estructuraScanStep (("tub").toList)) m := by
  induction ids with
  | nil => intro m; rfl
  | cons s t ih =>
    intro m
    by_cases hne : s = []
    · subst hne
      have h1 : tuberiaScanStep m [] = m := rfl
      have h2 : ((("tub").toList).isPrefixOf (pyLower ([] : Str))) = false := rfl
      simp only [List.foldl_cons, h1, List.filter_cons, h2]
      exact ih m
    · cases hpf : (("tub").toList).isPrefixOf (pyLower s) with
      | false =>
        have h1 : tuberiaScanStep m s = m := by
          unfold tuberiaScanStep
          rw [if_neg hne, if_pos (by rw [hpf]; simp)]
        simp only [List.foldl_cons, h1, List.filter_cons, hpf]
        exact ih m
      | true =>
        simp only [List.foldl_cons, List.filter_cons, hpf]
        rw [tubStep_eq_estructuraStep m s hne hpf]
        exact ih _

theorem get_next_tuberia_eq_amended (ids : List Str) :
    get_next_tuberia_id ids = nextIdAmended ids (("tub").toList) := by
  unfold get_next_tuberia_id nextIdAmended suffixNums
  simp only [foldl_tubStep_eq, foldl_scanStep_eq_max]

theorem listMaxD_ge_init (l : List Int) (m : Int) : m ≤ listMaxD l m := by
  induction l with
  | nil => exact le_refl m
  | cons x t ih =>
    show m ≤ max x (listMaxD t m)
    exact le_max_of_le_right ih

theorem listMaxD_ge_mem {l : List Int} {v : Int} (h : v ∈ l) (m : Int) :
    v ≤ listMaxD l m := by
  induction l with
  | nil => simp at h
  | cons x t ih =>
    show v ≤ max x (listMaxD t m)
    rcases List.mem_cons.mp h with h1 | h1
    · subst h1; exact le_max_left _ _
    · exact le_max_of_le_right (ih h1)

theorem pyLower_digits {s : Str} (h : s.all isDigit = true) : pyLower s = s := by
  have hm : ∀ c ∈ s, isDigit c = true := by simpa [List.all_eq_true] using h
  unfold pyLower
  rw [List.map_congr_left (fun c hc => lowerChar_of_digit (hm c hc))]
  exact List.map_id s

theorem nextId_not_mem_core (pfx : Str) (ids : List Str)
    (hpl : pyLower pfx = pfx) :
    ∀ e ∈ ids, pyLower e ≠ pyLower (nextIdAmended ids pfx) := by
  intro e he hcontra
  set M := listMaxD (suffixNums ids pfx) 0 with hM
  have hM0 : 0 ≤ M := listMaxD_ge_init _ 0
  have hfmt : formatInt04 (M + 1) = zeroPad 4 (natDigits (M + 1).toNat) := by
    unfold formatInt04
    rw [if_neg (by omega)]
  have hdig : (zeroPad 4 (natDigits (M + 1).toNat)).all isDigit = true :=
    zeroPad_all (natDigits_all _)
  have hne : (zeroPad 4 (natDigits (M + 1).toNat) : Str) ≠ [] :=
    zeroPad_ne_nil (natDigits_ne_nil _)
  have hlow : pyLower (nextIdAmended ids pfx) = pfx ++ zeroPad 4 (natDigits (M + 1).toNat) := by
    unfold nextIdAmended
    rw [← hM, hfmt]
    unfold pyLower
    rw [List.map_append]
    show pyLower pfx ++ pyLower _ = _
    rw [hpl, pyLower_digits hdig]
  rw [hlow] at hcontra
  have hfilter : e ∈ ids.filter (fun s => pfx.isPrefixOf (pyLower s)) := by
    rw [List.mem_filter]
    refine ⟨he, ?_⟩
    rw [hcontra, List.isPrefixOf_iff_prefix]
    exact List.prefix_append _ _
  have hdrop : pyLower (e.drop pfx.length) = zeroPad 4 (natDigits (M + 1).toNat) := by
    have h1 : pyLower (e.drop pfx.length) = (pyLower e).drop pfx.length := by
      unfold pyLower
      rw [List.map_drop]
    rw [h1, hcontra, List.drop_left]
  have hsuffix : e.drop pfx.length = zeroPad 4 (natDigits (M + 1).toNat) :=
    eq_of_pyLower_digits hdig hdrop
  have hparse : pyInt (e.drop pfx.length) = some ((M + 1 : Int)) := by
    rw [hsuffix, pyInt_digits hne hdig, natOfDigits_zeroPad, natDigits_val]
    congr 1
    omega
  have hmem : (M + 1 : Int) ∈ suffixNums ids pfx := by
    unfold suffixNums
    exact List.mem_filterMap.mpr ⟨e, hfilter, hparse⟩
  have := listMaxD_ge_mem hmem 0
  omega

theorem estructuraPfx_lower (tipo : Str) :
    pyLower (estructuraPfx tipo) = estructuraPfx tipo := by
  unfold estructuraPfx
  split
  · decide
  split
  · decide
  · decide

/-! ## Linestring loop characterisation -/

theorem foldl_lineGroupStep_none (parts : List Str) :
    parts.foldl lineGroupStep none = none := by
  induction parts with
  | nil => rfl
  | cons part t ih =>
    simp only [List.foldl_cons]
    have h : lineGroupStep none part = none := rfl
    rw [h, ih]

theorem foldl_lineGroupStep_eq (parts : List Str) : ∀ acc,
    parts.foldl lineGroupStep (some acc) = (lineGroups parts).map (fun l => acc ++ l) := by
  induction parts with
  | nil => intro acc; simp [lineGroups]
  | cons part t ih =>
    intro acc
    simp only [List.foldl_cons, lineGroups]
    cases hsp : pySplitWs (pyStrip part) with
    | nil =>
      simp only [lineGroupStep, hsp]
      exact ih acc
    | cons a rest =>
      cases rest with
      | nil =>
        simp only [lineGroupStep, hsp]
        exact ih acc
      | cons b rest2 =>
        cases rest2 with
        | nil =>
          cases hfa : pyFloat a with
          | none =>
            simp only [lineGroupStep, hsp, hfa]
            cases hfb : pyFloat b <;> simp [foldl_lineGroupStep_none]
          | some x =>
            cases hfb : pyFloat b with
            | none =>
              simp only [lineGroupStep, hsp, hfa, hfb]
              simp [foldl_lineGroupStep_none]
            | some y =>
              simp only [lineGroupStep, hsp, hfa, hfb]
              rw [ih (acc ++ [(x, y)])]
              cases hlg : lineGroups t with
              | none => rfl
              | some l => simp
        | cons d rest3 =>
          simp only [lineGroupStep, hsp]
          exact ih acc

theorem parse_linestring_eq_lineGroups (wkt : Str) :
    parse_linestring_wkt wkt =
      (if lineEnvelope wkt then lineGroups (splitComma (lineInner wkt)) else some []) := by
  unfold parse_linestring_wkt lineEnvelope lineInner
  by_cases h0 : wkt = []
  · subst h0
    simp
  · rw [if_neg h0]
    by_cases henv : ((("linestring(").toList).isPrefixOf (pyLower (pyStrip wkt)) &&
        List.isSuffixOf [')'] (pyStrip wkt)) = true
    · rw [if_pos henv]
      have hb : (¬ wkt = [] &&
          ((("linestring(").toList).isPrefixOf (pyLower (pyStrip wkt)) &&
            List.isSuffixOf [')'] (pyStrip wkt))) = true := by
        simp only [henv, Bool.and_true]
        simpa using h0
      rw [if_pos hb]
      rw [foldl_lineGroupStep_eq]
      cases lineGroups (splitComma (pyStrip
          ((List.drop (List.findIdx (fun c => c = '(') (pyStrip wkt) + 1)
            (pyStrip wkt)).dropLast))) <;> simp
    · rw [if_neg henv]
      have hb : (¬ wkt = [] &&
          ((("linestring(").toList).isPrefixOf (pyLower (pyStrip wkt)) &&
            List.isSuffixOf [')'] (pyStrip wkt))) = false := by
        rw [Bool.and_eq_false_iff]
        right
        exact Bool.not_eq_true _ ▸ (by simpa using henv)
      rw [if_neg (by rw [hb]; simp)]

/-! ## Lookup and map assembly lemmas -/

theorem findEstructura_id {es : List EstructuraHidraulica} {eid : Str}
    {e : EstructuraHidraulica} (h : findEstructura es eid = some e) : e.id = eid := by
  unfold findEstructura at h
  have h2 := List.find?_some h
  simpa using h2

theorem assemblePipes_eq (rows : List Tuberia)
    (h : ∀ t ∈ rows, parse_linestring_wkt t.geometria ≠ none) :
    assemblePipes rows = some (rows.filterMap (fun t =>
      match parse_linestring_wkt t.geometria with
      | some (c :: cs) =>
        some ⟨t.id, t.id_estructura_inicio, t.id_estructura_destino, c :: cs⟩
      | _ => none)) := by
  induction rows with
  | nil => rfl
  | cons t rest ih =>
    have hrec := ih (fun q hq => h q (by simp [hq]))
    cases hp : parse_linestring_wkt t.geometria with
    | none => exact absurd hp (h t (by simp))
    | some cs =>
      cases cs with
      | nil =>
        simp only [assemblePipes, hp, List.filterMap_cons]
        exact hrec
      | cons c cs2 =>
        simp only [assemblePipes, hp, List.filterMap_cons, hrec]
        rfl

/-! ## Point parser characterisation -/

theorem lower_nonspace {c d : Char} (h : lowerChar c = d) (hd : isPySpace d = false) :
    isPySpace c = false := by
  by_cases hup : 65 ≤ c.toNat ∧ c.toNat ≤ 90
  · cases hs : isPySpace c with
    | false => rfl
    | true =>
      rw [isPySpace_iff] at hs
      omega
  · rw [lowerChar_eq_self_of_not_upper hup] at h
    rw [h]
    exact hd

theorem pyLower_length (s : Str) : (pyLower s).length = s.length := List.length_map _ _

theorem parse_point_positive
    {ws1 ws2 pre sep tx ty : Str} {x y : ℚ}
    (hw1 : ∀ c ∈ ws1, isPySpace c = true) (hw2 : ∀ c ∈ ws2, isPySpace c = true)
    (hpre : pyLower pre = ("point").toList)
    (hsep : ∀ c ∈ sep, isPySpace c = true ∨ c = ',') (hsepne : sep ≠ [])
    (htx : ∀ c ∈ tx, isPySpace c = false ∧ ¬ c = ',')
    (hty : ∀ c ∈ ty, isPySpace c = false ∧ ¬ c = ',')
    (htxne : tx ≠ []) (htyne : ty ≠ [])
    (hx : pyFloat tx = some x) (hy : pyFloat ty = some y) :
    parse_point_wkt (ws1 ++ ((pre ++ '(' :: (tx ++ sep ++ ty)) ++ [')']) ++ ws2)
      = some (x, y) := by
  have hprelen : pre.length = 5 := by
    have h2 := congrArg List.length hpre
    rw [pyLower_length] at h2
    simpa using h2
  obtain ⟨c0, pr, hpre_cons⟩ : ∃ c0 pr, pre = c0 :: pr := by
    cases pre with
    | nil => simp at hprelen
    | cons a l => exact ⟨a, l, rfl⟩
  have hc0 : lowerChar c0 = 'p' := by
    rw [hpre_cons] at hpre
    simpa [pyLower] using congrArg List.head? hpre
  have hc0ns : isPySpace c0 = false := lower_nonspace hc0 (by decide)
  have hpre_noparen : ∀ c ∈ pre, (decide (c = '(') : Bool) = false := by
    intro c hc
    have hmem : lowerChar c ∈ ("point").toList := by
      rw [← hpre]
      exact List.mem_map_of_mem lowerChar hc
    by_cases hcp : c = '('
    · subst hcp
      rw [lowerChar_eq_self_of_not_upper (by decide)] at hmem
      simp at hmem
    · simpa using hcp
  set core : Str := (pre ++ '(' :: (tx ++ sep ++ ty)) ++ [')'] with hcore
  have hcorene : core ≠ [] := by
    rw [hcore]
    simp
  have hcore_head : ∀ c, core.head? = some c → isPySpace c = false := by
    intro c hc
    rw [hcore, hpre_cons] at hc
    simp only [List.cons_append, List.head?_cons, Option.some.injEq] at hc
    rw [← hc]
    exact hc0ns
  have hcore_last : ∀ c, core.getLast? = some c → isPySpace c = false := by
    intro c hc
    rw [hcore, List.getLast?_concat] at hc
    simp only [Option.some.injEq] at hc
    rw [← hc]
    decide
  have hwkt_ne : (ws1 ++ core ++ ws2 : Str) ≠ [] := by
    intro hcon
    rcases List.append_eq_nil.mp hcon with ⟨h4, _⟩
    rcases List.append_eq_nil.mp h4 with ⟨_, h6⟩
    exact hcorene h6
  have hstrip : pyStrip (ws1 ++ core ++ ws2) = core :=
    pyStrip_padded hw1 hw2 hcorene hcore_head hcore_last
  unfold parse_point_wkt
  rw [if_neg hwkt_ne, hstrip]
  have hpoint_split : (("point(").toList : Str) = ("point").toList ++ ['('] := by decide
  have hpref : (("point(").toList).isPrefixOf (pyLower core) = true := by
    rw [ List.isPrefixOf_iff_prefix, hcore]
    unfold pyLower
    rw [List.map_append, List.map_append]
    show (("point(").toList : Str) <+:
      (pyLower pre ++ pyLower ('(' :: (tx ++ sep ++ ty))) ++ pyLower [')']
    rw [hpre]
    show (("point(").toList : Str) <+:
      ((("point").toList ++ lowerChar '(' :: pyLower (tx ++ sep ++ ty)) ++ pyLower [')'])
    rw [show lowerChar '(' = '(' from by decide,
      List.append_cons (("point").toList) '(' (pyLower (tx ++ sep ++ ty)),
      List.append_assoc, ← hpoint_split]
    exact List.prefix_append _ _
  have hsuffix : List.isSuffixOf [')'] core = true := by
    rw [List.isSuffixOf_iff_suffix, hcore]
    exact List.suffix_append _ _
  rw [if_pos (by rw [hpref, hsuffix]; rfl)]
  have hidx : core.findIdx (fun c => c = '(') = 5 := by
    rw [hcore, List.append_assoc, findIdx_append_false hpre_noparen, hprelen]
    simp [List.findIdx_cons]
  rw [hidx]
  have hdrop : core.drop (5 + 1) = (tx ++ sep ++ ty) ++ [')'] := by
    rw [hcore, List.append_assoc,
      show ('(' :: (tx ++ sep ++ ty) ++ [')'] : Str) = '(' :: ((tx ++ sep ++ ty) ++ [')'])
        from by simp,
      List.append_cons pre '(' ((tx ++ sep ++ ty) ++ [')']),
      show (5 + 1 : Nat) = (pre ++ ['('] : Str).length from by simp [hprelen]]
    exact List.drop_left _ _
  rw [hdrop, List.dropLast_concat]
  have hinstrip : pyStrip (tx ++ sep ++ ty) = tx ++ sep ++ ty := by
    apply pyStrip_eq_self
    · intro c hc
      rw [List.append_assoc, List.head?_append_of_ne_nil _ htxne] at hc
      exact (htx c (List.mem_of_mem_head? hc)).1
    · intro c hc
      rw [List.getLast?_append_of_ne_nil _ htyne] at hc
      exact (hty c (List.mem_of_mem_getLast? hc)).1
  have hcomma : commaToSpace (tx ++ sep ++ ty) = tx ++ commaToSpace sep ++ ty := by
    unfold commaToSpace
    rw [List.map_append, List.map_append]
    congr 1
    · congr 1
      rw [List.map_congr_left (fun c hc => if_neg (htx c hc).2)]
      exact List.map_id tx
    · rw [List.map_congr_left (fun c hc => if_neg (hty c hc).2)]
      exact List.map_id ty
  have hsep2 : ∀ c ∈ commaToSpace sep, isPySpace c = true := by
    intro c hc
    obtain ⟨d, hd, hdc⟩ := List.mem_map.mp hc
    rcases hsep d hd with h5 | h5
    · rw [← hdc]
      by_cases hdcomma : d = ','
      · rw [if_pos hdcomma]; decide
      · rw [if_neg hdcomma]; exact h5
    · rw [← hdc, if_pos h5]
      decide
  have hsep2ne : commaToSpace sep ≠ [] := by
    unfold commaToSpace
    simpa using hsepne
  simp only [hinstrip, hcomma,
    pySplitWs_pair htxne htyne (fun c hc => (htx c hc).1) (fun c hc => (hty c hc).1)
      hsep2ne hsep2]
  simp [hx, hy]

theorem parse_point_body (wkt : Str) (h0 : wkt ≠ [])
    (henv : ((("point(").toList).isPrefixOf (pyLower (pyStrip wkt)) &&
        List.isSuffixOf [')'] (pyStrip wkt)) = true) :
    parse_point_wkt wkt = (match pointTokens wkt with
      | [a, b] => (match pyFloat a, pyFloat b with
          | some x, some y => some (x, y)
          | _, _ => none)
      | _ => none) := by
  unfold parse_point_wkt
  rw [if_neg h0, if_pos henv]
  rfl

theorem parse_point_env_fail (wkt : Str) (h0 : wkt ≠ [])
    (henv : ((("point(").toList).isPrefixOf (pyLower (pyStrip wkt)) &&
        List.isSuffixOf [')'] (pyStrip wkt)) = false) :
    parse_point_wkt wkt = none := by
  unfold parse_point_wkt
  rw [if_neg h0, if_neg (by rw [henv]; simp)]

theorem parse_point_none_iff (wkt : Str) : parse_point_wkt wkt = none ↔ pointFails wkt := by
  by_cases h0 : wkt = []
  · subst h0
    constructor
    · intro _
      exact Or.inl rfl
    · intro _
      rfl
  · by_cases henv : ((("point(").toList).isPrefixOf (pyLower (pyStrip wkt)) &&
        List.isSuffixOf [')'] (pyStrip wkt)) = true
    · rw [parse_point_body wkt h0 henv]
      rw [Bool.and_eq_true] at henv
      have hstripne : ¬ pyStrip wkt = [] := by
        intro hs
        rw [hs] at henv
        exact absurd henv.1 (by decide)
      unfold pointFails
      constructor
      · intro hnone
        right; right
        cases htk : pointTokens wkt with
        | nil =>
          left
          intro a b hab
          simp at hab
        | cons a rest =>
          cases rest with
          | nil =>
            left
            intro a2 b2 hab
            simp at hab
          | cons b rest2 =>
            cases rest2 with
            | nil =>
              rw [htk] at hnone
              right
              refine ⟨a, b, rfl, ?_⟩
              cases hfa : pyFloat a with
              | none => exact Or.inl (by simp [hfa])
              | some xa =>
                cases hfb : pyFloat b with
                | none => exact Or.inr (by simp [hfb])
                | some yb =>
                  simp [hfa, hfb] at hnone
            | cons d rest3 =>
              left
              intro a2 b2 hab
              simp at hab
      · intro hfail
        rcases hfail with hf | hf | hf | hf
        · exact absurd hf hstripne
        · exact absurd ⟨henv.1, henv.2⟩ hf
        · cases htk : pointTokens wkt with
          | nil => rfl
          | cons a rest =>
            cases rest with
            | nil => rfl
            | cons b rest2 =>
              cases rest2 with
              | nil => exact absurd htk (hf a b)
              | cons d rest3 => rfl
        · obtain ⟨a, b, htk, hfn⟩ := hf
          rw [htk]
          rcases hfn with h | h
          · rw [Option.isNone_iff_eq_none] at h
            simp [h]
          · rw [Option.isNone_iff_eq_none] at h
            simp [h]
    · have henvf : ((("point(").toList).isPrefixOf (pyLower (pyStrip wkt)) &&
          List.isSuffixOf [')'] (pyStrip wkt)) = false := Bool.eq_false_iff.mpr henv
      rw [parse_point_env_fail wkt h0 henvf]
      unfold pointFails
      constructor
      · intro _
        right; left
        intro hc
        apply henv
        rw [Bool.and_eq_true]
        exact ⟨hc.1, hc.2⟩
      · intro _
        rfl

/-! ## Claim theorems -/

/-- C1 (counterexample): contrary to the claim that `parseLineString` never
raises and returns an empty sequence on a string containing only malformed
coordinate groups, the input `"LINESTRING(a b)"` — one malformed group that
does split into exactly two tokens, neither numeric — reaches `float("a")`
and raises `ValueError` (modelled as `none`) instead of returning the empty
sequence. -/
theorem C1_counterexample :
    parse_linestring_wkt (("LINESTRING(a b)").toList) = none ∧
      ¬ parse_linestring_wkt (("LINESTRING(a b)").toList) = some [] :=
  ⟨by decide, by decide⟩

/-- C1 (amended): `parseLineString` returns the empty sequence when the input
is empty or lacks the `LINESTRING(...)` envelope; otherwise it processes the
comma groups in order exactly as `lineGroups` does — a group that does not
split into exactly two whitespace tokens is silently skipped, a two-token
group whose tokens both parse contributes its point in encounter order, and a
two-token group with a non-numeric token raises `ValueError` rather than
being skipped.  Inputs whose malformed groups are all of the skippable kind
(wrong token count) yield the empty sequence without raising. -/
theorem C1_parse_linestring_amended :
    (∀ wkt, parse_linestring_wkt wkt =
      (if lineEnvelope wkt then lineGroups (splitComma (lineInner wkt)) else some [])) ∧
    parse_linestring_wkt [] = some [] ∧
    parse_linestring_wkt (("POINT(1 2)").toList) = some [] ∧
    parse_linestring_wkt (("LINESTRING(1 2 3, x, , 7)").toList) = some [] ∧
    parse_linestring_wkt (("LINESTRING(1 2, zz, 3 4)").toList) = some [(1, 2), (3, 4)] :=
  ⟨parse_linestring_eq_lineGroups, by decide, by decide, by decide, by decide⟩

/-- C2: for every pipe-creation request whose two endpoint structures resolve
to points, the stored geometry is the two-vertex LINESTRING text of the start
point followed by the end point (the request schema has no geometry field, so
caller geometry can never be accepted), that text reparses to exactly those
two vertices in order, and each clave elevation is the endpoint's
`cota_estructura` minus the caller's `profundidad_clave` when both are
present, otherwise the caller-supplied `cota_clave` (possibly absent). -/
theorem C2_crear_tuberia_derivation
    (db : Db) (toks : List (Str × Int)) (data : PipeCreate) (token : Str)
    (u : Usuario) (e1 e2 : EstructuraHidraulica) (x1 y1 x2 y2 : ℚ)
    (hu : get_user_by_token toks db.usuarios token = .ok u)
    (h1 : findEstructura db.estructuras data.id_estructura_inicio = some e1)
    (h2 : findEstructura db.estructuras data.id_estructura_destino = some e2)
    (hown1 : e1.id_proyecto ∈ userProjectIds db u.id)
    (hown2 : e2.id_proyecto ∈ userProjectIds db u.id)
    (hp1 : get_point_from_structure db.estructuras data.id_estructura_inicio = some (x1, y1))
    (hp2 : get_point_from_structure db.estructuras data.id_estructura_destino = some (x2, y2)) :
    ∃ t : Tuberia,
      crear_tuberia db toks data token = (.ok t, db.tuberias ++ [t]) ∧
      t.geometria = formatLineString [(x1, y1), (x2, y2)] ∧
      (IsDec x1 → IsDec y1 → IsDec x2 → IsDec y2 →
        parse_linestring_wkt (formatLineString [(x1, y1), (x2, y2)])
          = some [(x1, y1), (x2, y2)]) ∧
      t.cota_clave_inicio = (match e1.cota_estructura, data.profundidad_clave_inicio with
        | some ce, some pc => some (ce - pc)
        | _, _ => data.cota_clave_inicio) ∧
      t.cota_clave_destino = (match e2.cota_estructura, data.profundidad_clave_destino with
        | some ce, some pc => some (ce - pc)
        | _, _ => data.cota_clave_destino) ∧
      t.id_estructura_inicio = data.id_estructura_inicio ∧
      t.id_estructura_destino = data.id_estructura_destino := by
  have he1 : e1.id = data.id_estructura_inicio := findEstructura_id h1
  have he2 : e2.id = data.id_estructura_destino := findEstructura_id h2
  have hfmt2 : ("LINESTRING(").toList ++ reprFloat x1 ++ ' ' :: reprFloat y1 ++
      (", ").toList ++ reprFloat x2 ++ ' ' :: reprFloat y2 ++ [')']
      = formatLineString [(x1, y1), (x2, y2)] := by
    simp [formatLineString, joinPairs, formatCoordPair]
  have hparse : IsDec x1 → IsDec y1 → IsDec x2 → IsDec y2 →
      parse_linestring_wkt (formatLineString [(x1, y1), (x2, y2)])
        = some [(x1, y1), (x2, y2)] := by
    intro hd1 hd2 hd3 hd4
    exact parse_formatLineString _ (by simp) (by
      intro p hp
      rcases List.mem_cons.mp hp with h | h
      · rw [h]; exact ⟨hd1, hd2⟩
      · rcases List.mem_cons.mp h with h5 | h5
        · rw [h5]; exact ⟨hd3, hd4⟩
        · simp at h5)
  unfold crear_tuberia
  rw [hu]
  simp only [h1, h2, he1, he2, hp1, hp2]
  rw [if_pos ⟨hown1, hown2⟩]
  exact ⟨_, rfl, hfmt2, hparse, rfl, rfl, rfl, rfl⟩

/-- C2 (witness): with the specification's numbers — start structure at
`POINT(1 2)` with `cota_estructura = 100.0` and depth 2.5, end structure at
`POINT(3 4)` with `cota_estructura = 95.0` and depth 1.0 — creation stores
the start-to-end LINESTRING and yields `claveStart = 97.5`,
`claveEnd = 94.0`. -/
theorem C2_witness :
    ∃ t : Tuberia, crear_tuberia dbFix toksFix dataFix (("tok").toList) =
        (.ok t, dbFix.tuberias ++ [t]) ∧
      t.geometria = formatLineString [(1, 2), (3, 4)] ∧
      t.cota_clave_inicio = some (195/2) ∧ t.cota_clave_destino = some 94 := by
  obtain ⟨t, hcall, hgeom, _, hci, hcd, _, _⟩ :=
    C2_crear_tuberia_derivation dbFix toksFix dataFix (("tok").toList) uFix e1Fix e2Fix
      1 2 3 4 rfl rfl rfl (by decide) (by decide) rfl rfl
  exact ⟨t, hcall, hgeom, by rw [hci]; decide, by rw [hcd]; decide⟩

/-- C3: `parsePoint` succeeds with `(x, y)` on every well-formed POINT text —
any casing of `POINT`, surrounding whitespace, and a separator made of
whitespace and/or commas between two numeric tokens — and returns the raised
`ValueError` (`none`) exactly when the input is empty or whitespace, the
`POINT(`...`)` envelope is missing, the content does not split into exactly
two tokens, or a token fails numeric parse. -/
theorem C3_parse_point_characterisation :
    (∀ (ws1 ws2 pre sep tx ty : Str) (x y : ℚ),
      (∀ c ∈ ws1, isPySpace c = true) → (∀ c ∈ ws2, isPySpace c = true) →
      pyLower pre = ("point").toList →
      (∀ c ∈ sep, isPySpace c = true ∨ c = ',') → sep ≠ [] →
      (∀ c ∈ tx, isPySpace c = false ∧ ¬ c = ',') →
      (∀ c ∈ ty, isPySpace c = false ∧ ¬ c = ',') →
      tx ≠ [] → ty ≠ [] →
      pyFloat tx = some x → pyFloat ty = some y →
      parse_point_wkt (ws1 ++ ((pre ++ '(' :: (tx ++ sep ++ ty)) ++ [')']) ++ ws2)
        = some (x, y)) ∧
    (∀ wkt, parse_point_wkt wkt = none ↔ pointFails wkt) := by
  constructor
  · intro ws1 ws2 pre sep tx ty x y hw1 hw2 hpre hsep hsepne htx hty htxne htyne hx hy
    exact parse_point_positive hw1 hw2 hpre hsep hsepne htx hty htxne htyne hx hy
  · exact parse_point_none_iff

/-- C3 (witness): the mixed-case, whitespace-padded, comma-separated text
`" pOiNt(-75.0, 6.2) "` parses to exactly `(-75.0, 6.2)`. -/
theorem C3_witness :
    parse_point_wkt ((" pOiNt(-75.0, 6.2) ").toList) = some (-75, 31/5) := by
  have h := C3_parse_point_characterisation.1 [' '] [' ']
    (("pOiNt").toList) ((", ").toList) (("-75.0").toList) (("6.2").toList) (-75) (31/5)
    (by decide) (by decide) (by decide) (by decide) (by decide) (by decide) (by decide)
    (by decide) (by decide) (by decide) (by decide)
  exact h

/-- C4 (counterexample): the suffix of `"pz-5"` does parse as an integer
(`int("-5") = -5`), so the claim's `maxNum` ("the greatest parsed value")
would be `-5` and its reply `"pz" ++ pad(-4) = "pz-004"`; the code's scan
keeps its running maximum at `0` and replies `"pz0001"`. -/
theorem C4_counterexample :
    get_next_estructura_id (("pozo").toList) [("pz-5").toList] = ("pz0001").toList ∧
    nextIdClaim [("pz-5").toList] (("pz").toList) = ("pz-004").toList ∧
    pyInt (("-5").toList) = some (-5) ∧
    get_next_estructura_id (("pozo").toList) [("pz-5").toList] ≠
      nextIdClaim [("pz-5").toList] (("pz").toList) :=
  ⟨by decide, by decide, by decide, by decide⟩

/-- C4 (amended): both next-id allocators case-insensitively filter the
stored identifiers to those starting with the prefix, strip the prefix,
ignore every identifier whose remainder fails integer parse, take `maxNum`
as the greatest parsed value exceeding zero — or `0` when none exceeds zero,
the running maximum starting at `0`, so negative parsed suffixes never
affect it — and return the prefix followed by `maxNum + 1` zero-padded to
width 4; in particular the empty set yields `pz0001`, gaps are ignored
(`{pz0001, pz0003, sm0002} ↦ pz0004`), and corrupt entries are skipped
(`{pzXX, pz0002} ↦ pz0003`). -/
theorem C4_next_id_amended :
    (∀ tipo ids, get_next_estructura_id tipo ids = nextIdAmended ids (estructuraPfx tipo)) ∧
    (∀ ids, get_next_tuberia_id ids = nextIdAmended ids (("tub").toList)) ∧
    get_next_estructura_id (("pozo").toList) [] = ("pz0001").toList ∧
    get_next_estructura_id (("pozo").toList)
      [("pz0001").toList, ("pz0003").toList, ("sm0002").toList] = ("pz0004").toList ∧
    get_next_estructura_id (("pozo").toList) [("pzXX").toList, ("pz0002").toList]
      = ("pz0003").toList :=
  ⟨get_next_estructura_eq_amended, get_next_tuberia_eq_amended, by decide, by decide,
    by decide⟩

/-- C5: the identifier returned by either next-id allocator is never an
element of the existing set, even under case-insensitive comparison: an
existing identifier whose lower-casing matched the reply would itself pass
the prefix filter and parse to `maxNum + 1`, contradicting the maximality of
the scan. -/
theorem C5_next_id_collision_free (ids : List Str) :
    (∀ tipo, ∀ e ∈ ids, e ≠ get_next_estructura_id tipo ids ∧
      pyLower e ≠ pyLower (get_next_estructura_id tipo ids)) ∧
    (∀ e ∈ ids, e ≠ get_next_tuberia_id ids ∧
      pyLower e ≠ pyLower (get_next_tuberia_id ids)) := by
  constructor
  · intro tipo e he
    have hcore := nextId_not_mem_core (estructuraPfx tipo) ids
      (estructuraPfx_lower tipo) e he
    rw [← get_next_estructura_eq_amended] at hcore
    exact ⟨fun hc => hcore (by rw [hc]), hcore⟩
  · intro e he
    have hcore := nextId_not_mem_core (("tub").toList) ids (by decide) e he
    rw [← get_next_tuberia_eq_amended] at hcore
    exact ⟨fun hc => hcore (by rw [hc]), hcore⟩

/-- C5 (witness): the allocator's reply for `{pz0001}` is not `pz0001`, not
even case-insensitively. -/
theorem C5_witness :
    ("pz0001").toList ≠ get_next_estructura_id (("pozo").toList) [("pz0001").toList] ∧
      pyLower (("pz0001").toList) ≠
        pyLower (get_next_estructura_id (("pozo").toList) [("pz0001").toList]) :=
  (C5_next_id_collision_free [("pz0001").toList]).1 (("pozo").toList) (("pz0001").toList)
    (by decide)

/-- C6: the delete-structure endpoint checks only a valid token and the
structure's existence — there is no ownership join — so under any valid
token, deletion of any existing structure succeeds (removing that row), and
it answers 404 exactly when no structure with the given id exists. -/
theorem C6_delete_structure_no_ownership_check
    (db : Db) (toks : List (Str × Int)) (estructura_id : Str) (token : Str) (u : Usuario)
    (hu : get_user_by_token toks db.usuarios token = .ok u) :
    ((∃ e ∈ db.estructuras, e.id = estructura_id) →
      eliminar_estructura_hidraulica db toks estructura_id token =
        .ok (db.estructuras.eraseP (fun e2 => e2.id == estructura_id))) ∧
    (eliminar_estructura_hidraulica db toks estructura_id token =
        .error ⟨404, ("Estructura no encontrada").toList⟩ ↔
      ¬ ∃ e ∈ db.estructuras, e.id = estructura_id) := by
  unfold eliminar_estructura_hidraulica
  rw [hu]
  cases hfind : findEstructura db.estructuras estructura_id with
  | some est =>
    have hmem : est ∈ db.estructuras := List.mem_of_find?_eq_some hfind
    have hid : est.id = estructura_id := findEstructura_id hfind
    refine ⟨fun _ => rfl, ?_, fun hnex => absurd ⟨est, hmem, hid⟩ hnex⟩
    intro hcon
    cases hcon
  | none =>
    have hnone : ∀ e ∈ db.estructuras, ¬ (e.id == estructura_id) = true := by
      unfold findEstructura at hfind
      exact List.find?_eq_none.mp hfind
    refine ⟨?_, fun _ => ?_, fun _ => rfl⟩
    · rintro ⟨e, he, hid⟩
      exact absurd (by simp [hid]) (hnone e he)
    · rintro ⟨e, he, hid⟩
      exact (hnone e he) (by simp [hid])

/-- C6 (witness): user 7's token deletes structure `sm0001`, which lives in
project 2 owned by user 9 — the cross-ownership deletion succeeds. -/
theorem C6_witness :
    eliminar_estructura_hidraulica dbFix toksFix (("sm0001").toList) (("tok").toList) =
      .ok (dbFix.estructuras.eraseP (fun e2 => e2.id == ("sm0001").toList)) :=
  (C6_delete_structure_no_ownership_check dbFix toksFix (("sm0001").toList)
    (("tok").toList) uFix rfl).1 ⟨eOtherFix, by decide, by decide⟩

/-- C7: when either endpoint structure of a pipe-creation request has no
resolvable POINT geometry (absent or malformed), the endpoint answers the
client error 400 with the descriptive Spanish detail message, and the pipe
table is returned unchanged — nothing is persisted. -/
theorem C7_endpoint_geometry_missing
    (db : Db) (toks : List (Str × Int)) (data : PipeCreate) (token : Str)
    (u : Usuario) (e1 e2 : EstructuraHidraulica)
    (hu : get_user_by_token toks db.usuarios token = .ok u)
    (h1 : findEstructura db.estructuras data.id_estructura_inicio = some e1)
    (h2 : findEstructura db.estructuras data.id_estructura_destino = some e2)
    (hown1 : e1.id_proyecto ∈ userProjectIds db u.id)
    (hown2 : e2.id_proyecto ∈ userProjectIds db u.id)
    (hbad : get_point_from_structure db.estructuras data.id_estructura_inicio = none ∨
            get_point_from_structure db.estructuras data.id_estructura_destino = none) :
    crear_tuberia db toks data token = (.error ⟨400, badGeometryMsg⟩, db.tuberias) := by
  have he1 : e1.id = data.id_estructura_inicio := findEstructura_id h1
  have he2 : e2.id = data.id_estructura_destino := findEstructura_id h2
  unfold crear_tuberia
  rw [hu]
  simp only [h1, h2, he1, he2]
  rw [if_pos ⟨hown1, hown2⟩]
  cases hA : get_point_from_structure db.estructuras data.id_estructura_inicio with
  | none =>
    cases hB : get_point_from_structure db.estructuras data.id_estructura_destino with
    | none => simp only [hA, hB]
    | some p2 =>
      obtain ⟨x2, y2⟩ := p2
      simp only [hA, hB]
  | some p1 =>
    obtain ⟨x1, y1⟩ := p1
    cases hB : get_point_from_structure db.estructuras data.id_estructura_destino with
    | none => simp only [hA, hB]
    | some p2 =>
      exfalso
      rcases hbad with hb | hb
      · rw [hA] at hb; cases hb
      · rw [hB] at hb; cases hb

/-- C7 (witness): creating a pipe from `pz0001` to `pz0003` — whose stored
geometry is NULL — fails with 400 and the descriptive message, leaving the
pipe table unchanged. -/
theorem C7_witness :
    crear_tuberia dbFix toksFix dataBadFix (("tok").toList) =
      (.error ⟨400, badGeometryMsg⟩, dbFix.tuberias) :=
  C7_endpoint_geometry_missing dbFix toksFix dataBadFix (("tok").toList) uFix e1Fix eBadFix
    rfl rfl rfl (by decide) (by decide) (Or.inr rfl)

/-- C8: the map payload's pipe list contains, for each pipe whose
start-structure belongs to the requested project, exactly one entry when its
stored LINESTRING parses to at least one coordinate pair — with `coords`
equal to the parsed ordered `[x, y]` (lon, lat) pairs exactly as stored, not
transposed — and no entry when it parses to the empty sequence, the latter
dropped silently rather than raising. -/
theorem C8_map_payload
    (db : Db) (toks : List (Str × Int)) (proyecto_id : Int) (token : Str)
    (u : Usuario) (proj : Proyecto)
    (hu : get_user_by_token toks db.usuarios token = .ok u)
    (hproj : db.proyectos.find? (fun p => p.id == proyecto_id && p.id_usuario == u.id)
      = some proj)
    (hparse : ∀ t ∈ mapPipeRows db proyecto_id, parse_linestring_wkt t.geometria ≠ none) :
    get_project_map_data db toks proyecto_id token =
      .ok ((mapPipeRows db proyecto_id).filterMap (fun t =>
        match parse_linestring_wkt t.geometria with
        | some (c :: cs) =>
          some ⟨t.id, t.id_estructura_inicio, t.id_estructura_destino, c :: cs⟩
        | _ => none)) := by
  unfold get_project_map_data
  rw [hu]
  simp only [hproj]
  rw [assemblePipes_eq _ hparse]

/-- C8 (witness): in the fixture project, pipe `tub0001` with stored geometry
`LINESTRING(1.0 2.0, 3.0 4.0)` is emitted with coords `[[1, 2], [3, 4]]`
as stored, while pipe `tub0002` with `LINESTRING()` (empty parse) is dropped
without an error. -/
theorem C8_witness :
    get_project_map_data dbFix toksFix 1 (("tok").toList) =
      .ok [⟨("tub0001").toList, ("pz0001").toList, ("pz0002").toList, [(1, 2), (3, 4)]⟩] := by
  rw [C8_map_payload dbFix toksFix 1 (("tok").toList) uFix pFix rfl rfl (by decide)]
  rfl

/-- C9: round-trip idempotence — for every non-empty sequence of valid
(finite-decimal) points, the LINESTRING text built by the pipe-creation
f-string reparses to exactly those points in order, hence formatting, parsing
and formatting again reproduces the first formatting. -/
theorem C9_roundtrip (pts : List (ℚ × ℚ)) (hne : pts ≠ [])
    (hdec : ∀ p ∈ pts, IsDec p.1 ∧ IsDec p.2) :
    parse_linestring_wkt (formatLineString pts) = some pts ∧
    (parse_linestring_wkt (formatLineString pts)).map formatLineString =
      some (formatLineString pts) := by
  have h := parse_formatLineString pts hne hdec
  exact ⟨h, by rw [h]; rfl⟩

/-- C9 (witness): round trip at the concrete points `(1, 2)` and
`(-75.1, 6.3)`. -/
theorem C9_witness :
    parse_linestring_wkt (formatLineString [(1, 2), (-751/10, 63/10)]) =
        some [(1, 2), (-751/10, 63/10)] ∧
      (parse_linestring_wkt (formatLineString [(1, 2), (-751/10, 63/10)])).map
          formatLineString = some (formatLineString [(1, 2), (-751/10, 63/10)]) :=
  C9_roundtrip [(1, 2), (-751/10, 63/10)] (by decide) (by decide)

/-- C10: a successful pipe update returns the found pipe with the partial
update applied: id, geometry and both endpoint references are unchanged, and
every other column equals the request value when that request field is
present and the prior value when it is absent. -/
theorem C10_update_frame
    (db : Db) (toks : List (Str × Int)) (tuberia_id : Str) (token : Str)
    (data : PipeUpdate) (u : Usuario) (t : Tuberia)
    (hu : get_user_by_token toks db.usuarios token = .ok u)
    (hfind : db.tuberias.find?
      (fun tb => tb.id == tuberia_id && ownsStartStructure db tb u.id) = some t) :
    actualizar_tuberia db toks tuberia_id token data = .ok (applyPipeUpdate data t) ∧
    (applyPipeUpdate data t).id = t.id ∧
    (applyPipeUpdate data t).geometria = t.geometria ∧
    (applyPipeUpdate data t).id_estructura_inicio = t.id_estructura_inicio ∧
    (applyPipeUpdate data t).id_estructura_destino = t.id_estructura_destino ∧
    (applyPipeUpdate data t).diametro =
      (match data.diametro with | some v => some v | none => t.diametro) ∧
    (applyPipeUpdate data t).material =
      (match data.material with | some v => some v | none => t.material) ∧
    (applyPipeUpdate data t).flujo =
      (match data.flujo with | some v => some v | none => t.flujo) ∧
    (applyPipeUpdate data t).estado =
      (match data.estado with | some v => some v | none => t.estado) ∧
    (applyPipeUpdate data t).sedimento =
      (match data.sedimento with | some v => v | none => t.sedimento) ∧
    (applyPipeUpdate data t).cota_clave_inicio =
      (match data.cota_clave_inicio with | some v => some v | none => t.cota_clave_inicio) ∧
    (applyPipeUpdate data t).cota_batea_inicio =
      (match data.cota_batea_inicio with | some v => some v | none => t.cota_batea_inicio) ∧
    (applyPipeUpdate data t).profundidad_clave_inicio =
      (match data.profundidad_clave_inicio with
        | some v => some v | none => t.profundidad_clave_inicio) ∧
    (applyPipeUpdate data t).profundidad_batea_inicio =
      (match data.profundidad_batea_inicio with
        | some v => some v | none => t.profundidad_batea_inicio) ∧
    (applyPipeUpdate data t).cota_clave_destino =
      (match data.cota_clave_destino with | some v => some v | none => t.cota_clave_destino) ∧
    (applyPipeUpdate data t).cota_batea_destino =
      (match data.cota_batea_destino with | some v => some v | none => t.cota_batea_destino) ∧
    (applyPipeUpdate data t).profundidad_clave_destino =
      (match data.profundidad_clave_destino with
        | some v => some v | none => t.profundidad_clave_destino) ∧
    (applyPipeUpdate data t).profundidad_batea_destino =
      (match data.profundidad_batea_destino with
        | some v => some v | none => t.profundidad_batea_destino) ∧
    (applyPipeUpdate data t).grados =
      (match data.grados with | some v => some v | none => t.grados) ∧
    (applyPipeUpdate data t).observaciones =
      (match data.observaciones with | some v => some v | none => t.observaciones) := by
  refine ⟨?_, rfl, rfl, rfl, rfl, rfl, rfl, rfl, rfl, rfl, rfl, rfl, rfl, rfl, rfl, rfl,
    rfl, rfl, rfl, rfl⟩
  unfold actualizar_tuberia
  rw [hu]
  simp only [hfind]

/-- C10 (witness): updating `tub0001` with a partial request (new diameter,
flow flag, start clave and observations) leaves id, geometry and endpoint
references intact and the untouched fields at their prior values. -/
theorem C10_witness :
    actualizar_tuberia dbFix toksFix (("tub0001").toList) (("tok").toList) updFix =
      .ok (applyPipeUpdate updFix tubFix) :=
  (C10_update_frame dbFix toksFix (("tub0001").toList) (("tok").toList) updFix uFix tubFix
    rfl rfl).1
